import Mathlib

/-!
# MiKTeX LuaTeX helpers: the shell-command gate

A shallow embedding of `Programs/TeXAndFriends/luatex/miktex/miktex.cpp`
together with the parts of `miktex/Core/Session.h` it relies on.

* The session object is an external collaborator (every member is pure
  virtual in `Session.h`), so it is a record of the answers it gives.
* The C globals `lua_only`, `restrictedshell` and `shellenabledp` are a record
  of integers read at call time.
* Side effects (log lines, session queries, the pipe being opened) are
  recorded, in program order, in a trace of events; a call either returns a
  value or raises a `MiKTeXException`.
* `#if defined(MIKTEX_WINDOWS)` blocks are selected by a boolean build flag.
* Classes used by `miktex.cpp` whose sources are not at hand (`Argv`,
  `PathName`) are parameters of the functions that use them; the command-line
  parser behind `Session::ExamineCommandLine` is modelled from the
  specification.
* A C string is the list of characters before the first NUL of its buffer.
* `log4cxx`'s `RolloverDescription` (`rolloverdescription.cpp`) is embedded in
  the namespace `log4cxx.rolling`; a member function gives the value returned
  and the object after the call.
-/

namespace MiKTeX

/-! ## Data model (`Session.h`) -/

/-- Result of a command-line examination (`Session::ExamineCommandLineResult`,
`Session.h` lines 1148-1159), constructors in declaration order. -/
inductive ExamineCommandLineResult where
  | ProbablySafe
  | MaybeSafe
  | NotSafe
  | SyntaxError
  deriving DecidableEq, Repr

/-- The `FileMode` values used by `miktex.cpp`. -/
inductive FileMode where
  | Create
  | Open
  | Command
  deriving DecidableEq, Repr

/-- The `FileAccess` values used by `miktex.cpp` and by `OpenFileInfo`. -/
inductive FileAccess where
  | None
  | Read
  | Write
  deriving DecidableEq, Repr

/-- The exception thrown by `Session::FatalMiKTeXError`; only the short
message is kept. -/
structure MiKTeXException where
  message : String
  deriving DecidableEq, Repr

/-- The macro `MIKTEX_INTERNAL_ERROR()`, that is
`MIKTEX_FATAL_ERROR("internal error")` (`Session.h` line 1218); the macro
`MIKTEX_UNEXPECTED()` expands to it, and `MIKTEX_EXPECT(p)` raises it when
`p` is false. -/
def MIKTEX_INTERNAL_ERROR : MiKTeXException := ⟨"internal error"⟩

/-- A `FILE*`: `none` is the null pointer, `some n` an open stream. -/
abbrev FILEptr := Option Nat

/-- Configuration sections named in `miktex.cpp` (the `MIKTEX_CONFIG_SECTION_*`
macros, kept symbolic). -/
inductive ConfigSection where
  | CORE
  | TEXANDFRIENDS
  deriving DecidableEq, Repr

/-- Configuration value names used in `miktex.cpp` (the `MIKTEX_CONFIG_VALUE_*`
macros, kept symbolic). -/
inductive ConfigValueName where
  | ALLOW_UNRESTRICTED_SUPER_USER
  | LAST_ADMIN_MAINTENANCE
  | LAST_USER_MAINTENANCE
  | CREATEAUXDIRECTORY
  deriving DecidableEq, Repr

/-- A configuration value, seen through the conversions `miktex.cpp` applies
to it. -/
structure ConfigValue where
  GetBool : Bool
  GetString : String
  GetTimeT : Int

/-- The answers of the session object to the member functions called by the
shell-command gate. `OpenFile` either returns a stream or throws. -/
structure Session where
  ExamineCommandLine : String → ExamineCommandLineResult × String × String
  RunningAsAdministrator : Bool
  GetConfigValue : ConfigSection → ConfigValueName → ConfigValue
  OpenFile : String → FileMode → FileAccess → Bool → Except MiKTeXException FILEptr

/-- The `extern "C"` globals of `miktex.cpp` lines 40-44. -/
structure Globals where
  lua_only : Int
  restrictedshell : Int
  shellenabledp : Int

/-- Observable effects of a call, in program order. -/
inductive Event where
  | ExamineCommandLine (commandLine : String)
  | RunningAsAdministrator
  | GetConfigValue (sec : ConfigSection) (name : ConfigValueName)
  | LogError (msg : String)
  | LogInfo (msg : String)
  | LogWarn (msg : String)
  | OpenFile (path : String) (mode : FileMode) (access : FileAccess) (isTextFile : Bool)
  deriving DecidableEq, Repr

/-- How a call ends: with a return value, or with an exception that leaves
the function. -/
inductive Outcome (α : Type) where
  | returned (value : α)
  | raised (e : MiKTeXException)
  deriving DecidableEq, Repr

/-- A finished call: its effects and how it ended. -/
structure Run (α : Type) where
  trace : List Event
  outcome : Outcome α

/-! ## `miktex.cpp` -/

/-- The call `std::replace(s.begin(), s.end(), o, n)`. -/
def replaceChar (o n : Char) (s : String) : String :=
  String.mk (s.data.map fun c => if c = o then n else c)

/-- The local `commandLine` of `miktex_emulate__runpopen` (lines 280-283):
the argument, with every single quote turned into a double quote on a
Windows build. -/
def runpopenCommandLine (windows : Bool) (commandLineArg : String) : String :=
  if windows then replaceChar (Char.ofNat 39) (Char.ofNat 34) commandLineArg
  else commandLineArg

/-- The result of `miktex_emulate__shell_cmd_is_allowed`: the return value and
the two output parameters. -/
structure ShellCmdIsAllowed where
  ret : Int
  safeCommandLineRet : String
  examinedCommandRet : String
  deriving DecidableEq, Repr

/-- The function `miktex_emulate__shell_cmd_is_allowed` (lines 193-211).
`xstrdup` copies the string. -/
def miktex_emulate__shell_cmd_is_allowed (session : Session) (commandLine : String) :
    ShellCmdIsAllowed :=
  let r := session.ExamineCommandLine commandLine
  let examineResult := r.1
  let examinedCommand := r.2.1
  let safeCommandLine := r.2.2
  { ret :=
      match examineResult with
      | ExamineCommandLineResult.SyntaxError => -1
      | ExamineCommandLineResult.ProbablySafe => 2
      | _ => 0
    safeCommandLineRet := safeCommandLine
    examinedCommandRet := examinedCommand }

/-- The tail of `miktex_emulate__runpopen` (lines 319-347), reached from both
branches of `if (restrictedshell)` with the trace `t` so far and the chosen
`toBeExecuted`: pick the access from the mode, announce the pipe, open it.
`PathName(toBeExecuted)` carries the string as it is. A `MiKTeXException` of
`OpenFile` is caught and turned into null. -/
def runpopenOpenPipe (session : Session) (examineResult : ExamineCommandLineResult)
    (mode : String) (t : List Event) (toBeExecuted : String) : Run FILEptr :=
  let chosen : Option FileAccess :=
    if mode = "w" then some FileAccess.Write
    else if mode = "r" then some FileAccess.Read
    else none
  match chosen with
  | none =>
    -- MIKTEX_UNEXPECTED();
    ⟨t, Outcome.raised MIKTEX_INTERNAL_ERROR⟩
  | some access =>
    let dir := if access = FileAccess.Read then "input" else "output"
    let announce :=
      if examineResult = ExamineCommandLineResult.ProbablySafe then
        Event.LogInfo ("initiating restricted " ++ dir ++ " pipe stream: " ++ toBeExecuted)
      else
        Event.LogWarn ("initiating unrestricted " ++ dir ++ " pipe stream: " ++ toBeExecuted)
    ⟨t ++ [announce, Event.OpenFile toBeExecuted FileMode.Command access true],
      Outcome.returned
        (match session.OpenFile toBeExecuted FileMode.Command access true with
         | Except.ok file => file
         | Except.error _ => none)⟩

/-- The function `miktex_emulate__runpopen` (lines 277-348). -/
def miktex_emulate__runpopen (windows : Bool) (g : Globals) (session : Session)
    (commandLineArg mode : String) : Run FILEptr :=
  -- MIKTEX_EXPECT(shellenabledp);
  if g.shellenabledp = 0 then ⟨[], Outcome.raised MIKTEX_INTERNAL_ERROR⟩ else
  let commandLine := runpopenCommandLine windows commandLineArg
  let r := session.ExamineCommandLine commandLine
  let examineResult := r.1
  let safeCommandLine := r.2.2
  let t0 := [Event.ExamineCommandLine commandLine]
  if examineResult = ExamineCommandLineResult.SyntaxError then
    ⟨t0 ++ [Event.LogError ("syntax error: " ++ commandLineArg)], Outcome.returned none⟩
  else if examineResult ≠ ExamineCommandLineResult.ProbablySafe
      ∧ examineResult ≠ ExamineCommandLineResult.MaybeSafe then
    ⟨t0 ++ [Event.LogError ("command is unsafe: " ++ commandLineArg)], Outcome.returned none⟩
  else if g.restrictedshell ≠ 0 then
    if examineResult ≠ ExamineCommandLineResult.ProbablySafe then
      ⟨t0 ++ [Event.LogError ("command not allowed: " ++ commandLineArg)], Outcome.returned none⟩
    else
      -- toBeExecuted = safeCommandLine;
      runpopenOpenPipe session examineResult mode t0 safeCommandLine
  else
    -- `&&` short-circuits: the configuration is read only for an administrator
    let t1 := t0 ++ [Event.RunningAsAdministrator]
    if session.RunningAsAdministrator then
      let t2 := t1 ++ [Event.GetConfigValue ConfigSection.CORE
        ConfigValueName.ALLOW_UNRESTRICTED_SUPER_USER]
      if !(session.GetConfigValue ConfigSection.CORE
          ConfigValueName.ALLOW_UNRESTRICTED_SUPER_USER).GetBool then
        ⟨t2 ++ [Event.LogError ("not allowed with elevated privileges: " ++ commandLineArg)],
          Outcome.returned none⟩
      else
        -- toBeExecuted = commandLine;
        runpopenOpenPipe session examineResult mode t2 commandLine
    else
      -- toBeExecuted = commandLine;
      runpopenOpenPipe session examineResult mode t1 commandLine

/-- The function `miktex_allow_unrestricted_shell_escape` (lines 213-219).
The operator `||` short-circuits: the session is asked whether the process
runs as administrator only when `lua_only` is zero, and the configuration is
read only for an administrator. -/
def miktex_allow_unrestricted_shell_escape (g : Globals) (session : Session) : Run Int :=
  if g.lua_only ≠ 0 then
    ⟨[], Outcome.returned 1⟩
  else if !session.RunningAsAdministrator then
    ⟨[Event.RunningAsAdministrator], Outcome.returned 1⟩
  else
    let okay := (session.GetConfigValue ConfigSection.CORE
      ConfigValueName.ALLOW_UNRESTRICTED_SUPER_USER).GetBool
    ⟨[Event.RunningAsAdministrator,
      Event.GetConfigValue ConfigSection.CORE ConfigValueName.ALLOW_UNRESTRICTED_SUPER_USER],
      Outcome.returned (if okay then 1 else 0)⟩

/-- The function `miktex_convert_to_unix` (lines 182-191) on the memory that
`path` points to: the loop walks the characters up to the first NUL (or the
end of the buffer), turns each backslash into a forward slash and leaves
everything from the NUL on untouched. -/
def miktex_convert_to_unix : List Char → List Char
  | [] => []
  | ch :: rest =>
    if ch = Char.ofNat 0 then ch :: rest
    else (if ch = Char.ofNat 92 then Char.ofNat 47 else ch) :: miktex_convert_to_unix rest

/-- The C string stored in a buffer: the characters before the first NUL. -/
def cString (buffer : List Char) : List Char :=
  buffer.takeWhile fun ch => ch ≠ Char.ofNat 0

/-- The result of `miktex_emulate__do_split_command`: the returned array, in
which `none` is a null entry, and the string stored in `*argv0Ret`. -/
structure SplitCommand where
  result : List (Option String)
  argv0Ret : String
  deriving DecidableEq, Repr

/-- The function `miktex_emulate__do_split_command` (lines 263-275). The class
`Argv` is not among the sources and is a parameter: `Argv commandLine` lists
the arguments the object holds, `argv[idx]` being argument `idx` for
`idx < GetArgc()` and null for `idx = GetArgc()`. `argv0RetIsNull` tells
whether the output pointer is null. The result is `none` when the behaviour
is undefined (`xstrdup` of a null `argv[0]`). -/
def miktex_emulate__do_split_command (Argv : String → List String) (commandLine : String)
    (argv0RetIsNull : Bool) : Option (Outcome SplitCommand) :=
  let argv := Argv commandLine
  -- MIKTEX_EXPECT(argv0Ret != nullptr);
  if argv0RetIsNull then some (Outcome.raised MIKTEX_INTERNAL_ERROR) else
  match argv.get? 0 with
  | none => none
  | some argv0 =>
    some (Outcome.returned
      { argv0Ret := argv0
        result := (List.range argv.length).map (fun idx => argv.get? idx) ++ [none] })

/-- The function `miktex_is_output_file` (lines 111-121). The class `PathName`
is not among the sources: its members `HasExtension` and `SetExtension` are
parameters, on the path as a string. The `bool` result is returned as 1 or
0. -/
def miktex_is_output_file (HasExtension : String → String → Bool)
    (SetExtension : String → String → String) (pathArg : String) : Int :=
  let path := pathArg
  let path := if HasExtension path ".gz" then SetExtension path "" else path
  if HasExtension path ".dvi" || HasExtension path ".pdf" || HasExtension path ".synctex"
  then 1 else 0

/-- Modelled from the spec: the class `PathName` is not among the sources. The
extension of a path, for `pathHasExtension` and `pathSetExtension`: scanning from the left, the last dot seen since the last directory delimiter
starts the extension; `none` when the last component has no dot. -/
def pathGetExtension : List Char → Option (List Char) → Option (List Char)
  | [], ext => ext
  | ch :: rest, ext =>
    if ch = Char.ofNat 47 then pathGetExtension rest none
    else if ch = Char.ofNat 46 then pathGetExtension rest (some (ch :: rest))
    else pathGetExtension rest ext

/-- Modelled from the spec: `PathName::HasExtension` is not among the sources.
The path has the extension `ext` (written with its dot) when the part of its
last component from the last dot on equals `ext`. -/
def pathHasExtension (path ext : String) : Bool :=
  match pathGetExtension path.data none with
  | none => false
  | some e => e = ext.data

/-- Modelled from the spec: `PathName::SetExtension` is not among the sources.
The extension of the path, when it has one, is removed and `ext` is put in
its place; `miktex.cpp` only calls it with the empty extension. -/
def pathSetExtension (path ext : String) : String :=
  match pathGetExtension path.data none with
  | none => String.mk (path.data ++ ext.data)
  | some e => String.mk (path.data.take (path.data.length - e.length) ++ ext.data)

/-! ## The command-line parser, modelled from the specification -/

/-- Modelled from the spec: the command-line parser is not among the sources.
Where the parser is while it reads a line: between tokens,
inside a token (with the characters read so far, last first), or inside a
quoted part of a token. -/
inductive SplitState where
  | between
  | inToken (cur : List Char)
  | inQuote (cur : List Char)
  deriving DecidableEq, Repr

/-- Modelled from the spec: the command-line parser behind
`Session::ExamineCommandLine` is not among the sources. One pass over the
line: blanks (space, tab) separate tokens, a double quote opens or closes a
quoted part in which blanks belong to the token, and the quotes themselves are
dropped. The result is `none` when the line ends inside a quoted part
("quoting is unbalanced"). -/
def splitAux : List Char → SplitState → Option (List (List Char))
  | [], SplitState.between => some []
  | [], SplitState.inToken cur => some [cur.reverse]
  | [], SplitState.inQuote _ => none
  | ch :: rest, SplitState.between =>
    if ch = Char.ofNat 34 then splitAux rest (SplitState.inQuote [])
    else if ch = Char.ofNat 32 ∨ ch = Char.ofNat 9 then splitAux rest SplitState.between
    else splitAux rest (SplitState.inToken [ch])
  | ch :: rest, SplitState.inToken cur =>
    if ch = Char.ofNat 34 then splitAux rest (SplitState.inQuote cur)
    else if ch = Char.ofNat 32 ∨ ch = Char.ofNat 9 then
      (splitAux rest SplitState.between).map (fun tokens => cur.reverse :: tokens)
    else splitAux rest (SplitState.inToken (ch :: cur))
  | ch :: rest, SplitState.inQuote cur =>
    if ch = Char.ofNat 34 then splitAux rest (SplitState.inToken cur)
    else splitAux rest (SplitState.inQuote (ch :: cur))

/-- Modelled from the spec: the operation `Split` of the command-line parser,
which is not among the sources: "ordered sequence of token, or fails with
SyntaxError when quoting is unbalanced or the line is empty"; `none` is the
failure. -/
def Split (line : String) : Option (List String) :=
  match splitAux line.data SplitState.between with
  | none => none
  | some [] => none
  | some tokens => some (tokens.map String.mk)

/-- Modelled from the spec: the operation `Rewrite` of the command-line parser,
which is not among the sources: "reconstructs a command line quoting each
token defensively". Each token is put between double quotes and the tokens
are joined by one space. -/
def rewriteAux : List (List Char) → List Char
  | [] => []
  | [token] => Char.ofNat 34 :: (token ++ [Char.ofNat 34])
  | token :: next :: tokens =>
    Char.ofNat 34 :: (token ++ Char.ofNat 34 :: Char.ofNat 32 :: rewriteAux (next :: tokens))

/-- Modelled from the spec: the operation `Rewrite` on strings. -/
def Rewrite (tokens : List String) : String :=
  String.mk (rewriteAux (tokens.map String.data))

/-- Modelled from the spec: the classification algorithm `Examine` behind
`Session::ExamineCommandLine`, which is not among the sources. A line that
does not parse gives `SyntaxError` with an empty program name and an empty
safe command line; otherwise the program name is the first token, the safe
command line is the rewritten token sequence, and the verdict comes from
`classify`, the allow-list policy that the spec leaves to configuration. -/
def Examine (classify : List String → ExamineCommandLineResult) (commandLine : String) :
    ExamineCommandLineResult × String × String :=
  match Split commandLine with
  | none => (ExamineCommandLineResult.SyntaxError, "", "")
  | some tokens => (classify tokens, tokens.headD "", Rewrite tokens)

/-- Modelled from the spec: the arguments an `Argv` object holds for a command
line, taken to be the tokens of `Split`, and none when the line does not
parse. -/
def splitArgv (commandLine : String) : List String :=
  (Split commandLine).getD []

/-! ## The file helpers of `miktex.cpp` and `MiKTeXUserInfo` -/

/-- Find file options (`Session::FindFileOption`, `Session.h` lines 406-416). -/
inductive FindFileOption where
  | Create
  | Renew
  | All
  | SearchFileSystem
  deriving DecidableEq, Repr

/-- The `FileType` values used by `miktex.cpp`. -/
inductive FileType where
  | FMT
  | TEX
  deriving DecidableEq, Repr

/-- The `SpecialPath` values used by `miktex.cpp`. -/
inductive SpecialPath where
  | CommonDataRoot
  | UserDataRoot
  deriving DecidableEq, Repr

/-- Information about an open file (`Session::OpenFileInfo`, `Session.h` lines
562-568). -/
structure OpenFileInfo where
  file : FILEptr := none
  fileName : String := ""
  mode : FileMode := FileMode.Open
  access : FileAccess := FileAccess.None
  deriving DecidableEq, Repr

/-- The session object with the further members that the file helpers of
`miktex.cpp` call. `FindFile` gives the path found, if any. The configuration
values are read with the default `"0"`, which is part of the answer. -/
structure FileSession extends Session where
  IsAdminMode : Bool
  FindFile : String → FileType → Finset FindFileOption → Option String
  TryGetOpenFileInfo : FILEptr → Bool × OpenFileInfo
  GetSpecialPath : SpecialPath → String

/-- The members of the class `PathName` (not among the sources) that
`miktex_open_format_file` calls, on the path as a string. -/
structure FormatPathName where
  HasExtension : String → Bool
  SetExtension : String → String → String
  GetFileNameWithoutExtension : String → String

/-- Observable effects of `miktex_open_format_file`, in program order; `Call`
marks an entry into the function. -/
inductive FormatFileEvent where
  | Call (renew : Int)
  | FindFile (fileName : String) (fileType : FileType) (options : Finset FindFileOption)
  | GetLastWriteTime (path : String)
  | GetConfigValue (sec : ConfigSection) (name : ConfigValueName)
  | IsAdminMode
  | OpenFile (path : String) (mode : FileMode) (access : FileAccess) (isTextFile : Bool)
  | PushAppName (name : String)
  deriving DecidableEq

/-- What `miktex_open_format_file` hands back: the return value and `*ppFile`. -/
structure FormatFile where
  ret : Int
  ppFile : FILEptr
  deriving DecidableEq, Repr

/-- A finished call of `miktex_open_format_file`. -/
structure FormatFileRun where
  trace : List FormatFileEvent
  outcome : Outcome FormatFile

/-- The end of `miktex_open_format_file` (lines 96-101): open the file found,
push the name of the dump as application name, return true. An exception of
`OpenFile` leaves the function. -/
def openFormatFileFinish (pathName : FormatPathName) (session : FileSession)
    (fileName found : String) (t : List FormatFileEvent) : FormatFileRun :=
  match session.OpenFile found FileMode.Open FileAccess.Read false with
  | Except.error e =>
    ⟨t ++ [FormatFileEvent.OpenFile found FileMode.Open FileAccess.Read false],
      Outcome.raised e⟩
  | Except.ok file =>
    let dumpName := pathName.GetFileNameWithoutExtension fileName
    ⟨t ++ [FormatFileEvent.OpenFile found FileMode.Open FileAccess.Read false,
        FormatFileEvent.PushAppName dumpName],
      Outcome.returned ⟨1, file⟩⟩

/-- The function `miktex_open_format_file` (lines 51-102).
`File::GetLastWriteTime` is not among the sources and is a parameter. The
recursion of line 91 is well founded: it is reached only with `renew` zero
and passes `true`. -/
def miktex_open_format_file (pathName : FormatPathName) (GetLastWriteTime : String → Int)
    (session : FileSession) (fileNameArg : String) (renew : Int) : FormatFileRun :=
  let fileName :=
    if !pathName.HasExtension fileNameArg then pathName.SetExtension fileNameArg ".fmt"
    else fileNameArg
  let findFileOptions : Finset FindFileOption :=
    if renew ≠ 0 then {FindFileOption.Create, FindFileOption.Renew}
    else {FindFileOption.Create}
  let t0 := [FormatFileEvent.Call renew,
    FormatFileEvent.FindFile fileName FileType.FMT findFileOptions]
  match session.FindFile fileName FileType.FMT findFileOptions with
  | none =>
    -- MIKTEX_FATAL_ERROR_2(T_("The memory dump file could not be found."), ...)
    ⟨t0, Outcome.raised ⟨"The memory dump file could not be found."⟩⟩
  | some found =>
    if renew = 0 then
      let modificationTime := GetLastWriteTime found
      let lastAdminMaintenance :=
        (session.GetConfigValue ConfigSection.CORE
          ConfigValueName.LAST_ADMIN_MAINTENANCE).GetTimeT
      let t1 := t0 ++ [FormatFileEvent.GetLastWriteTime found,
        FormatFileEvent.GetConfigValue ConfigSection.CORE
          ConfigValueName.LAST_ADMIN_MAINTENANCE]
      -- renew = lastAdminMaintenance > modificationTime;
      let renew1 : Bool := decide (lastAdminMaintenance > modificationTime)
      -- if (!renew && !session->IsAdminMode()) renew = lastUserMaintenance > modificationTime;
      let step : Bool × List FormatFileEvent :=
        if !renew1 then
          if !session.IsAdminMode then
            (decide ((session.GetConfigValue ConfigSection.CORE
                ConfigValueName.LAST_USER_MAINTENANCE).GetTimeT > modificationTime),
              t1 ++ [FormatFileEvent.IsAdminMode,
                FormatFileEvent.GetConfigValue ConfigSection.CORE
                  ConfigValueName.LAST_USER_MAINTENANCE])
          else (renew1, t1 ++ [FormatFileEvent.IsAdminMode])
        else (renew1, t1)
      if step.1 then
        -- RECURSION
        let r := miktex_open_format_file pathName GetLastWriteTime session fileNameArg 1
        ⟨step.2 ++ r.trace, r.outcome⟩
      else
        openFormatFileFinish pathName session fileName found step.2
    else
      openFormatFileFinish pathName session fileName found t0
termination_by (if renew = 0 then 1 else 0 : Nat)
decreasing_by simp_all

/-- The `errno` values set by `miktex.cpp`. -/
inductive Errno where
  | ENOENT
  deriving DecidableEq, Repr

/-- What `miktex_emulate__spawn_command` leaves behind: the return value, the
value stored in `errno` (`none` when it is not touched) and the calls of
`Process::Run` it made, as file name and arguments. -/
structure SpawnCommand where
  ret : Int
  errno : Option Errno
  ran : List (String × List String)
  deriving DecidableEq, Repr

/-- The loop of lines 224-227 of `miktex_emulate__spawn_command`: the entries
of `argv` up to the first null entry. The result is `none` when the array has
no null entry (the loop runs past its end: undefined behaviour). -/
def spawnArguments : List (Option String) → Option (List String)
  | [] => none
  | none :: _ => some []
  | some argument :: rest => (spawnArguments rest).map (fun arguments => argument :: arguments)

/-- The `try` block of `miktex_emulate__spawn_command` (lines 230-233):
`MIKTEX_EXPECT(env == nullptr)`, then `Process::Run`, whose exception leaves
the block. `Process::Run` is not among the sources and is a parameter giving
the exit code it stores. -/
def spawnTry (ProcessRun : String → List String → Except MiKTeXException Int)
    (fileName : String) (arguments : List String) (envIsNull : Bool) :
    Outcome Int × List (String × List String) :=
  if !envIsNull then (Outcome.raised MIKTEX_INTERNAL_ERROR, [])
  else
    match ProcessRun fileName arguments with
    | Except.ok exitCode => (Outcome.returned exitCode, [(fileName, arguments)])
    | Except.error e => (Outcome.raised e, [(fileName, arguments)])

/-- The function `miktex_emulate__spawn_command` (lines 221-240): the `try`
block with its handler `catch (const MiKTeXException&)`. The result is `none`
when the behaviour is undefined (no null entry in `argv`). -/
def miktex_emulate__spawn_command
    (ProcessRun : String → List String → Except MiKTeXException Int)
    (fileName : String) (argv : List (Option String)) (envIsNull : Bool) :
    Option (Outcome SpawnCommand) :=
  match spawnArguments argv with
  | none => none
  | some arguments =>
    match spawnTry ProcessRun fileName arguments envIsNull with
    | (Outcome.returned exitCode, ran) => some (Outcome.returned ⟨exitCode, none, ran⟩)
    | (Outcome.raised _, ran) => some (Outcome.returned ⟨-1, some Errno.ENOENT, ran⟩)

/-- The function `miktex_is_pipe` (lines 350-356). -/
def miktex_is_pipe (session : FileSession) (file : FILEptr) : Int :=
  let openFileInfo := session.TryGetOpenFileInfo file
  if openFileInfo.1 && decide (openFileInfo.2.mode = FileMode.Command) then 1 else 0

/-- The path operations that `miktex_hack__is_luaotfload_file` calls and that
are not among the sources: `PathName::Clean`, the operator `/` that appends a
component, `PathName::Equals` and `Utils::IsParentDirectoryOf`. -/
structure PathLibrary where
  Clean : String → String
  Append : String → String → String
  Equals : String → String → Bool
  IsParentDirectoryOf : String → String → Bool

/-- The function `miktex_hack__is_luaotfload_file` (lines 406-420). -/
def miktex_hack__is_luaotfload_file (lib : PathLibrary) (session : FileSession)
    (path : String) : Int :=
  let varDir := session.GetSpecialPath
    (if session.IsAdminMode then SpecialPath.CommonDataRoot else SpecialPath.UserDataRoot)
  let cleanPath := lib.Clean path
  if lib.Equals (lib.Append varDir "m_t_x_t_e_s_t.tmp") cleanPath then 1
  else if lib.IsParentDirectoryOf (lib.Append varDir "luatex-cache") cleanPath then 1
  else 0

/-- The struct `MiKTeXUserInfo` (`Session.h` lines 264-283): the fields read by
its member functions. -/
structure MiKTeXUserInfo where
  role : Int
  level : Int
  expirationDate : Int
  deriving DecidableEq, Repr

namespace MiKTeXUserInfo

/-- The enumerator `Developer = 1`. -/
def Developer : Int := 1

/-- The enumerator `Contributor = 2`. -/
def Contributor : Int := 2

/-- The enumerator `Sponsor = 4`. -/
def Sponsor : Int := 4

/-- The enumerator `KnownUser = 8`. -/
def KnownUser : Int := 8

/-- The enumerator `Individual = 100`. -/
def Individual : Int := 100

/-- The member `IsMember`. `DateUtil::IsDefined` is not among the sources and is
a parameter; `now` is the value of `std::time(nullptr)`. -/
def IsMember (IsDefined : Int → Bool) (now : Int) (u : MiKTeXUserInfo) : Bool :=
  decide (u.level ≥ Individual) && (!IsDefined u.expirationDate || decide (u.expirationDate ≥ now))

/-- The member `IsDeveloper`. -/
def IsDeveloper (IsDefined : Int → Bool) (now : Int) (u : MiKTeXUserInfo) : Bool :=
  IsMember IsDefined now u && decide (Int.land u.role Developer ≠ 0)

/-- The member `IsContributor`. -/
def IsContributor (IsDefined : Int → Bool) (now : Int) (u : MiKTeXUserInfo) : Bool :=
  IsMember IsDefined now u && decide (Int.land u.role Contributor ≠ 0)

/-- The member `IsSponsor`. -/
def IsSponsor (IsDefined : Int → Bool) (now : Int) (u : MiKTeXUserInfo) : Bool :=
  IsMember IsDefined now u && decide (Int.land u.role Sponsor ≠ 0)

/-- The member `IsKnownUser`. -/
def IsKnownUser (IsDefined : Int → Bool) (now : Int) (u : MiKTeXUserInfo) : Bool :=
  IsMember IsDefined now u && decide (Int.land u.role KnownUser ≠ 0)

end MiKTeXUserInfo

/-! ## Observations on a run -/

/-- The arguments of every `OpenFile` call of a run, in order. -/
def openFileCalls (t : List Event) : List (String × FileMode × FileAccess × Bool) :=
  t.filterMap fun e =>
    match e with
    | Event.OpenFile p m a b => some (p, m, a, b)
    | _ => none

/-- The messages passed to `LogError` during a run, in order. -/
def loggedErrors (t : List Event) : List String :=
  t.filterMap fun e =>
    match e with
    | Event.LogError msg => some msg
    | _ => none

/-- The messages passed to `LogInfo` during a run, in order. -/
def loggedInfos (t : List Event) : List String :=
  t.filterMap fun e =>
    match e with
    | Event.LogInfo msg => some msg
    | _ => none

/-- The messages passed to `LogWarn` during a run, in order. -/
def loggedWarnings (t : List Event) : List String :=
  t.filterMap fun e =>
    match e with
    | Event.LogWarn msg => some msg
    | _ => none

/-- The verdict the session gives for the command line that
`miktex_emulate__runpopen` examines. -/
def runpopenVerdict (windows : Bool) (session : Session) (commandLineArg : String) :
    ExamineCommandLineResult :=
  (session.ExamineCommandLine (runpopenCommandLine windows commandLineArg)).1

/-- The safe command line the session gives for the command line that
`miktex_emulate__runpopen` examines. -/
def runpopenSafeCommandLine (windows : Bool) (session : Session) (commandLineArg : String) :
    String :=
  (session.ExamineCommandLine (runpopenCommandLine windows commandLineArg)).2.2

/-- The value of `GetConfigValue(CORE, ALLOW_UNRESTRICTED_SUPER_USER).GetBool()`. -/
def allowUnrestrictedSuperUser (session : Session) : Bool :=
  (session.GetConfigValue ConfigSection.CORE
    ConfigValueName.ALLOW_UNRESTRICTED_SUPER_USER).GetBool

/-- The conditions under which `miktex_emulate__runpopen` reaches its tail:
the entry check passed; under `restrictedshell` the verdict is `ProbablySafe`;
otherwise the verdict is `ProbablySafe` or `MaybeSafe` and the process is not
an administrator without the allow-unrestricted-super-user flag. -/
def runpopenAuthorised (windows : Bool) (g : Globals) (session : Session)
    (commandLineArg : String) : Prop :=
  g.shellenabledp ≠ 0
  ∧ ((g.restrictedshell ≠ 0
      ∧ runpopenVerdict windows session commandLineArg = ExamineCommandLineResult.ProbablySafe)
    ∨ (g.restrictedshell = 0
      ∧ (runpopenVerdict windows session commandLineArg = ExamineCommandLineResult.ProbablySafe
        ∨ runpopenVerdict windows session commandLineArg = ExamineCommandLineResult.MaybeSafe)
      ∧ ¬ (session.RunningAsAdministrator = true
        ∧ allowUnrestrictedSuperUser session = false)))

instance (windows : Bool) (g : Globals) (session : Session) (commandLineArg : String) :
    Decidable (runpopenAuthorised windows g session commandLineArg) := by
  unfold runpopenAuthorised
  infer_instance

/-- The command line that `miktex_emulate__runpopen` selects for execution:
the safe command line under `restrictedshell`, its local command line
otherwise. -/
def runpopenSelected (windows : Bool) (g : Globals) (session : Session)
    (commandLineArg : String) : String :=
  if g.restrictedshell ≠ 0 then runpopenSafeCommandLine windows session commandLineArg
  else runpopenCommandLine windows commandLineArg

/-- The events of a run that query the privilege policy:
`RunningAsAdministrator()` and `GetConfigValue(...)`. -/
def privilegeQueries (t : List Event) : List Event :=
  t.filter fun e =>
    match e with
    | Event.RunningAsAdministrator => true
    | Event.GetConfigValue _ _ => true
    | _ => false

/-- The local `fileName` of `miktex_open_format_file` (lines 58-62): the
argument, with the extension `.fmt` when it has none. -/
def formatFileName (pathName : FormatPathName) (fileNameArg : String) : String :=
  if !pathName.HasExtension fileNameArg then pathName.SetExtension fileNameArg ".fmt"
  else fileNameArg

/-- The option sets of the file searches of a run, in order. -/
def formatFileSearches (t : List FormatFileEvent) : List (Finset FindFileOption) :=
  t.filterMap fun e =>
    match e with
    | FormatFileEvent.FindFile _ _ options => some options
    | _ => none

/-- The values of `renew` at the entries into `miktex_open_format_file` during
a run, in order. -/
def formatFileCalls (t : List FormatFileEvent) : List Int :=
  t.filterMap fun e =>
    match e with
    | FormatFileEvent.Call renew => some renew
    | _ => none

/-- The events of a run that consult the file time and the maintenance times:
`File::GetLastWriteTime` and `GetConfigValue`. -/
def formatFileTimeQueries (t : List FormatFileEvent) : List FormatFileEvent :=
  t.filter fun e =>
    match e with
    | FormatFileEvent.GetLastWriteTime _ => true
    | FormatFileEvent.GetConfigValue _ _ => true
    | _ => false

/-! ## Sample collaborators, used to run the definitions on concrete inputs -/

/-- A session that gives every command line the verdict `v`, names `kpsewhich`
as the command, answers `"kpsewhich article.cls"` as the safe command line,
and opens every pipe as stream 7. -/
def sampleSession (v : ExamineCommandLineResult) (admin allow : Bool) : Session where
  ExamineCommandLine := fun _ => (v, "kpsewhich", "kpsewhich article.cls")
  RunningAsAdministrator := admin
  GetConfigValue := fun _ _ => ⟨allow, "", 0⟩
  OpenFile := fun _ _ _ _ => Except.ok (some 7)

/-- Globals of a run with shell escape enabled. -/
def sampleGlobals (luaOnly restricted : Int) : Globals where
  lua_only := luaOnly
  restrictedshell := restricted
  shellenabledp := 1

/-- A session like `sampleSession` whose pipe opener throws. -/
def throwingSession (v : ExamineCommandLineResult) (admin allow : Bool) : Session where
  ExamineCommandLine := fun _ => (v, "kpsewhich", "kpsewhich article.cls")
  RunningAsAdministrator := admin
  GetConfigValue := fun _ _ => ⟨allow, "", 0⟩
  OpenFile := fun _ _ _ _ => Except.error ⟨"the pipe could not be opened"⟩

/-- A sample `Argv`: the words between blanks. -/
def sampleArgv (commandLine : String) : List String :=
  ((commandLine.data.splitOn (Char.ofNat 32)).filter (fun w => w ≠ [])).map String.mk

/-- A sample `PathName`: the extension is the part of the last component from
its last dot on. -/
def samplePathName : FormatPathName where
  HasExtension := fun path => (pathGetExtension path.data none).isSome
  SetExtension := pathSetExtension
  GetFileNameWithoutExtension := fun path => pathSetExtension path ""

/-- A sample session for the file helpers: it finds every file under
`/var/miktex/`, reports the given admin mode and maintenance times, tracks
stream 7 as a pipe and stream 8 as a plain file, and has the data roots
`/var/miktex` (common) and `/home/u/.miktex` (user). -/
def sampleFileSession (adminMode : Bool) (lastAdmin lastUser : Int) : FileSession where
  ExamineCommandLine := fun _ => (ExamineCommandLineResult.ProbablySafe, "", "")
  RunningAsAdministrator := false
  GetConfigValue := fun _ name =>
    match name with
    | ConfigValueName.LAST_ADMIN_MAINTENANCE => ⟨false, "", lastAdmin⟩
    | ConfigValueName.LAST_USER_MAINTENANCE => ⟨false, "", lastUser⟩
    | _ => ⟨false, "", 0⟩
  OpenFile := fun _ _ _ _ => Except.ok (some 8)
  IsAdminMode := adminMode
  FindFile := fun fileName _ _ => some ("/var/miktex/" ++ fileName)
  TryGetOpenFileInfo := fun file =>
    if file = some 7 then (true, { file := file, mode := FileMode.Command })
    else if file = some 8 then (true, { file := file, mode := FileMode.Open })
    else (false, {})
  GetSpecialPath := fun special =>
    match special with
    | SpecialPath.CommonDataRoot => "/var/miktex"
    | SpecialPath.UserDataRoot => "/home/u/.miktex"

/-- A sample path library: paths are compared as strings, components are
joined by a slash, and a directory is a parent of the paths that start with
it and a slash. -/
def samplePathLibrary : PathLibrary where
  Clean := fun path => path
  Append := fun path component => path ++ "/" ++ component
  Equals := fun a b => a = b
  IsParentDirectoryOf := fun parent child =>
    decide (child.data.take (parent.data.length + 1) = parent.data ++ [Char.ofNat 47]
      ∧ parent.data.length + 1 < child.data.length)

end MiKTeX

namespace log4cxx.rolling

/-! ## `rolloverdescription.cpp` -/

/-- An `ActionPtr`: `none` is the null pointer, `some n` an action. -/
abbrev ActionPtr := Option Nat

/-- The struct `RolloverDescription::RolloverDescriptionPrivate`
(`rolloverdescription.cpp` lines 27-62). -/
structure RolloverDescriptionPrivate where
  activeFileName : String
  append : Bool
  synchronous : ActionPtr
  asynchronous : ActionPtr
  deriving DecidableEq, Repr

/-- The class `RolloverDescription`: it owns its private data. -/
structure RolloverDescription where
  m_priv : RolloverDescriptionPrivate
  deriving DecidableEq, Repr

namespace RolloverDescription

/-- The four-argument constructor `RolloverDescription::RolloverDescription`
(lines 70-77). -/
def create (activeFileName1 : String) (append1 : Bool)
    (synchronous1 asynchronous1 : ActionPtr) : rolling.RolloverDescription :=
  ⟨⟨activeFileName1, append1, synchronous1, asynchronous1⟩⟩

/-- The member `getActiveFileName` (lines 81-84): the value returned and the
object after the call. -/
def getActiveFileName (self : rolling.RolloverDescription) :
    String × rolling.RolloverDescription :=
  (self.m_priv.activeFileName, self)

/-- The member `getAppend` (lines 86-89): the value returned and the object
after the call. -/
def getAppend (self : rolling.RolloverDescription) : Bool × rolling.RolloverDescription :=
  (self.m_priv.append, self)

/-- The member `getSynchronous` (lines 91-94): the value returned and the
object after the call. -/
def getSynchronous (self : rolling.RolloverDescription) :
    ActionPtr × rolling.RolloverDescription :=
  (self.m_priv.synchronous, self)

/-- The member `getAsynchronous` (lines 102-105): the value returned and the
object after the call. -/
def getAsynchronous (self : rolling.RolloverDescription) :
    ActionPtr × rolling.RolloverDescription :=
  (self.m_priv.asynchronous, self)

end RolloverDescription

end log4cxx.rolling

namespace MiKTeX

/-! ## Theorems -/

/-- The three ways the tail of `miktex_emulate__runpopen` can go: mode "w",
mode "r", any other mode. -/
theorem runpopenOpenPipe_cases (session : Session) (v : ExamineCommandLineResult)
    (mode : String) (t : List Event) (x : String) :
    (mode = "w" ∧ runpopenOpenPipe session v mode t x
        = ⟨t ++ [(if v = ExamineCommandLineResult.ProbablySafe then
              Event.LogInfo ("initiating restricted " ++ "output" ++ " pipe stream: " ++ x)
            else Event.LogWarn ("initiating unrestricted " ++ "output" ++ " pipe stream: " ++ x)),
            Event.OpenFile x FileMode.Command FileAccess.Write true],
          Outcome.returned
            (match session.OpenFile x FileMode.Command FileAccess.Write true with
             | Except.ok file => file
             | Except.error _ => none)⟩)
    ∨ (mode = "r" ∧ runpopenOpenPipe session v mode t x
        = ⟨t ++ [(if v = ExamineCommandLineResult.ProbablySafe then
              Event.LogInfo ("initiating restricted " ++ "input" ++ " pipe stream: " ++ x)
            else Event.LogWarn ("initiating unrestricted " ++ "input" ++ " pipe stream: " ++ x)),
            Event.OpenFile x FileMode.Command FileAccess.Read true],
          Outcome.returned
            (match session.OpenFile x FileMode.Command FileAccess.Read true with
             | Except.ok file => file
             | Except.error _ => none)⟩)
    ∨ (mode ≠ "w" ∧ mode ≠ "r"
        ∧ runpopenOpenPipe session v mode t x = ⟨t, Outcome.raised MIKTEX_INTERNAL_ERROR⟩) := by
  by_cases hw : mode = "w"
  · left
    subst hw
    simp [runpopenOpenPipe]
  · by_cases hr : mode = "r"
    · right; left
      subst hr
      simp [runpopenOpenPipe]
    · right; right
      simp [runpopenOpenPipe, hw, hr]

/-- The eight paths through the gate of `miktex_emulate__runpopen`: the entry
check fails; one of the four denials; one of the three ways into the tail. -/
theorem runpopen_gate_cases (windows : Bool) (g : Globals) (session : Session)
    (commandLineArg mode : String) :
    (g.shellenabledp = 0
      ∧ miktex_emulate__runpopen windows g session commandLineArg mode
        = ⟨[], Outcome.raised MIKTEX_INTERNAL_ERROR⟩)
    ∨ (g.shellenabledp ≠ 0
      ∧ runpopenVerdict windows session commandLineArg = ExamineCommandLineResult.SyntaxError
      ∧ miktex_emulate__runpopen windows g session commandLineArg mode
        = ⟨[Event.ExamineCommandLine (runpopenCommandLine windows commandLineArg),
            Event.LogError ("syntax error: " ++ commandLineArg)], Outcome.returned none⟩)
    ∨ (g.shellenabledp ≠ 0
      ∧ runpopenVerdict windows session commandLineArg = ExamineCommandLineResult.NotSafe
      ∧ miktex_emulate__runpopen windows g session commandLineArg mode
        = ⟨[Event.ExamineCommandLine (runpopenCommandLine windows commandLineArg),
            Event.LogError ("command is unsafe: " ++ commandLineArg)], Outcome.returned none⟩)
    ∨ (g.shellenabledp ≠ 0 ∧ g.restrictedshell ≠ 0
      ∧ runpopenVerdict windows session commandLineArg = ExamineCommandLineResult.MaybeSafe
      ∧ miktex_emulate__runpopen windows g session commandLineArg mode
        = ⟨[Event.ExamineCommandLine (runpopenCommandLine windows commandLineArg),
            Event.LogError ("command not allowed: " ++ commandLineArg)], Outcome.returned none⟩)
    ∨ (g.shellenabledp ≠ 0 ∧ g.restrictedshell ≠ 0
      ∧ runpopenVerdict windows session commandLineArg = ExamineCommandLineResult.ProbablySafe
      ∧ miktex_emulate__runpopen windows g session commandLineArg mode
        = runpopenOpenPipe session ExamineCommandLineResult.ProbablySafe mode
            [Event.ExamineCommandLine (runpopenCommandLine windows commandLineArg)]
            (runpopenSafeCommandLine windows session commandLineArg))
    ∨ (g.shellenabledp ≠ 0 ∧ g.restrictedshell = 0
      ∧ (runpopenVerdict windows session commandLineArg = ExamineCommandLineResult.ProbablySafe
        ∨ runpopenVerdict windows session commandLineArg = ExamineCommandLineResult.MaybeSafe)
      ∧ session.RunningAsAdministrator = true ∧ allowUnrestrictedSuperUser session = false
      ∧ miktex_emulate__runpopen windows g session commandLineArg mode
        = ⟨[Event.ExamineCommandLine (runpopenCommandLine windows commandLineArg),
            Event.RunningAsAdministrator,
            Event.GetConfigValue ConfigSection.CORE
              ConfigValueName.ALLOW_UNRESTRICTED_SUPER_USER,
            Event.LogError ("not allowed with elevated privileges: " ++ commandLineArg)],
          Outcome.returned none⟩)
    ∨ (g.shellenabledp ≠ 0 ∧ g.restrictedshell = 0
      ∧ (runpopenVerdict windows session commandLineArg = ExamineCommandLineResult.ProbablySafe
        ∨ runpopenVerdict windows session commandLineArg = ExamineCommandLineResult.MaybeSafe)
      ∧ session.RunningAsAdministrator = true ∧ allowUnrestrictedSuperUser session = true
      ∧ miktex_emulate__runpopen windows g session commandLineArg mode
        = runpopenOpenPipe session (runpopenVerdict windows session commandLineArg) mode
            [Event.ExamineCommandLine (runpopenCommandLine windows commandLineArg),
             Event.RunningAsAdministrator,
             Event.GetConfigValue ConfigSection.CORE
               ConfigValueName.ALLOW_UNRESTRICTED_SUPER_USER]
            (runpopenCommandLine windows commandLineArg))
    ∨ (g.shellenabledp ≠ 0 ∧ g.restrictedshell = 0
      ∧ (runpopenVerdict windows session commandLineArg = ExamineCommandLineResult.ProbablySafe
        ∨ runpopenVerdict windows session commandLineArg = ExamineCommandLineResult.MaybeSafe)
      ∧ session.RunningAsAdministrator = false
      ∧ miktex_emulate__runpopen windows g session commandLineArg mode
        = runpopenOpenPipe session (runpopenVerdict windows session commandLineArg) mode
            [Event.ExamineCommandLine (runpopenCommandLine windows commandLineArg),
             Event.RunningAsAdministrator]
            (runpopenCommandLine windows commandLineArg)) := by
  unfold runpopenVerdict runpopenSafeCommandLine allowUnrestrictedSuperUser
  simp only [miktex_emulate__runpopen]
  by_cases hshell : g.shellenabledp = 0
  · simp [hshell]
  by_cases hres : g.restrictedshell = 0 <;>
    by_cases hadmin : session.RunningAsAdministrator = true <;>
    by_cases hallow : (session.GetConfigValue ConfigSection.CORE
      ConfigValueName.ALLOW_UNRESTRICTED_SUPER_USER).GetBool = true <;>
    cases hv : (session.ExamineCommandLine (runpopenCommandLine windows commandLineArg)).1 <;>
    simp [hshell, hres, hadmin, hallow, hv]


/-- An authorised call reaches the tail of `miktex_emulate__runpopen` with the
selected command line, having logged and opened nothing so far. -/
theorem runpopen_of_authorised (windows : Bool) (g : Globals) (session : Session)
    (commandLineArg mode : String)
    (hauth : runpopenAuthorised windows g session commandLineArg) :
    ∃ t, miktex_emulate__runpopen windows g session commandLineArg mode
        = runpopenOpenPipe session (runpopenVerdict windows session commandLineArg) mode t
            (runpopenSelected windows g session commandLineArg)
      ∧ openFileCalls t = [] ∧ loggedErrors t = [] ∧ loggedInfos t = []
      ∧ loggedWarnings t = []
      ∧ (g.restrictedshell ≠ 0 → privilegeQueries t = []) := by
  obtain ⟨hshell, hcase⟩ := hauth
  rcases runpopen_gate_cases windows g session commandLineArg mode with
    ⟨h0, _⟩ | ⟨_, hv, _⟩ | ⟨_, hv, _⟩ | ⟨_, hres, hv, _⟩
    | ⟨_, hres, hv, hrun⟩ | ⟨_, hres, _, hadm, hallow, _⟩
    | ⟨_, hres, _, _, _, hrun⟩ | ⟨_, hres, _, _, hrun⟩
  · exact absurd h0 hshell
  · simp [hv] at hcase
  · simp [hv] at hcase
  · simp [hv, hres] at hcase
  · exact ⟨[Event.ExamineCommandLine (runpopenCommandLine windows commandLineArg)], by rw [hrun, hv]; simp [runpopenSelected, hres],
      by simp [openFileCalls], by simp [loggedErrors], by simp [loggedInfos],
      by simp [loggedWarnings], by simp [privilegeQueries]⟩
  · simp [hres, hadm, hallow] at hcase
  · exact ⟨[Event.ExamineCommandLine (runpopenCommandLine windows commandLineArg), Event.RunningAsAdministrator,
        Event.GetConfigValue ConfigSection.CORE ConfigValueName.ALLOW_UNRESTRICTED_SUPER_USER],
      by rw [hrun]; simp [runpopenSelected, hres],
      by simp [openFileCalls], by simp [loggedErrors], by simp [loggedInfos],
      by simp [loggedWarnings], by simp [hres]⟩
  · exact ⟨[Event.ExamineCommandLine (runpopenCommandLine windows commandLineArg), Event.RunningAsAdministrator],
      by rw [hrun]; simp [runpopenSelected, hres],
      by simp [openFileCalls], by simp [loggedErrors], by simp [loggedInfos],
      by simp [loggedWarnings], by simp [hres]⟩

/-- A call that passed the entry check and is not authorised ends with a logged
error and the null return value. -/
theorem runpopen_of_not_authorised (windows : Bool) (g : Globals) (session : Session)
    (commandLineArg mode : String) (hshell : g.shellenabledp ≠ 0)
    (hnot : ¬ runpopenAuthorised windows g session commandLineArg) :
    ∃ t msg, miktex_emulate__runpopen windows g session commandLineArg mode
        = ⟨t ++ [Event.LogError msg], Outcome.returned none⟩
      ∧ openFileCalls t = [] ∧ loggedErrors t = [] ∧ loggedInfos t = []
      ∧ loggedWarnings t = [] := by
  unfold runpopenAuthorised at hnot
  rcases runpopen_gate_cases windows g session commandLineArg mode with
    ⟨h0, _⟩ | ⟨_, hv, hrun⟩ | ⟨_, hv, hrun⟩ | ⟨_, hres, hv, hrun⟩
    | ⟨_, hres, hv, hrun⟩ | ⟨_, hres, _, hadm, hallow, hrun⟩
    | ⟨_, hres, hv, hadm, hallow, hrun⟩ | ⟨_, hres, hv, hadm, hrun⟩
  · exact absurd h0 hshell
  · exact ⟨[_], _, hrun, by simp [openFileCalls], by simp [loggedErrors],
      by simp [loggedInfos], by simp [loggedWarnings]⟩
  · exact ⟨[_], _, hrun, by simp [openFileCalls], by simp [loggedErrors],
      by simp [loggedInfos], by simp [loggedWarnings]⟩
  · exact ⟨[_], _, hrun, by simp [openFileCalls], by simp [loggedErrors],
      by simp [loggedInfos], by simp [loggedWarnings]⟩
  · exact absurd ⟨hshell, Or.inl ⟨hres, hv⟩⟩ hnot
  · exact ⟨[_, _, _], _, hrun, by simp [openFileCalls], by simp [loggedErrors],
      by simp [loggedInfos], by simp [loggedWarnings]⟩
  · exact absurd ⟨hshell, Or.inr ⟨hres, hv, by simp [hallow]⟩⟩ hnot
  · exact absurd ⟨hshell, Or.inr ⟨hres, hv, by simp [hadm]⟩⟩ hnot


/-- The tail of `miktex_emulate__runpopen` logs no error. -/
theorem loggedErrors_runpopenOpenPipe (session : Session) (v : ExamineCommandLineResult)
    (mode : String) (t : List Event) (x : String) :
    loggedErrors (runpopenOpenPipe session v mode t x).trace = loggedErrors t := by
  rcases runpopenOpenPipe_cases session v mode t x with ⟨_, hp⟩ | ⟨_, hp⟩ | ⟨_, _, hp⟩ <;>
    rw [hp] <;> by_cases hv : v = ExamineCommandLineResult.ProbablySafe <;>
    simp [loggedErrors, hv]

/-- The tail of `miktex_emulate__runpopen` asks the session no privilege
question. -/
theorem privilegeQueries_runpopenOpenPipe (session : Session) (v : ExamineCommandLineResult)
    (mode : String) (t : List Event) (x : String) :
    privilegeQueries (runpopenOpenPipe session v mode t x).trace = privilegeQueries t := by
  rcases runpopenOpenPipe_cases session v mode t x with ⟨_, hp⟩ | ⟨_, hp⟩ | ⟨_, _, hp⟩ <;>
    rw [hp] <;> by_cases hv : v = ExamineCommandLineResult.ProbablySafe <;>
    simp [privilegeQueries, hv]

/-- With a mode "r" or "w" the tail of `miktex_emulate__runpopen` opens the
pipe once and returns what the pipe opener gives, null if it throws. -/
theorem runpopenOpenPipe_valid_mode (session : Session) (v : ExamineCommandLineResult)
    (mode : String) (t : List Event) (x : String) (hmode : mode = "r" ∨ mode = "w") :
    openFileCalls (runpopenOpenPipe session v mode t x).trace
        = openFileCalls t
          ++ [(x, FileMode.Command, (if mode = "w" then FileAccess.Write else FileAccess.Read),
              true)]
    ∧ (runpopenOpenPipe session v mode t x).outcome
        = Outcome.returned
            (match session.OpenFile x FileMode.Command
                (if mode = "w" then FileAccess.Write else FileAccess.Read) true with
             | Except.ok file => file
             | Except.error _ => none)
    ∧ (v = ExamineCommandLineResult.ProbablySafe →
        loggedInfos (runpopenOpenPipe session v mode t x).trace
          = loggedInfos t ++ ["initiating restricted "
              ++ (if mode = "w" then "output" else "input") ++ " pipe stream: " ++ x]
        ∧ loggedWarnings (runpopenOpenPipe session v mode t x).trace = loggedWarnings t)
    ∧ (v ≠ ExamineCommandLineResult.ProbablySafe →
        loggedWarnings (runpopenOpenPipe session v mode t x).trace
          = loggedWarnings t ++ ["initiating unrestricted "
              ++ (if mode = "w" then "output" else "input") ++ " pipe stream: " ++ x]
        ∧ loggedInfos (runpopenOpenPipe session v mode t x).trace = loggedInfos t) := by
  rcases hmode with hm | hm <;> subst hm <;>
    by_cases hv : v = ExamineCommandLineResult.ProbablySafe <;>
    simp [runpopenOpenPipe, openFileCalls, loggedInfos, loggedWarnings, hv]

/-- With any other mode the tail of `miktex_emulate__runpopen` raises the
internal error and does nothing else. -/
theorem runpopenOpenPipe_invalid_mode (session : Session) (v : ExamineCommandLineResult)
    (mode : String) (t : List Event) (x : String) (hr : mode ≠ "r") (hw : mode ≠ "w") :
    runpopenOpenPipe session v mode t x = ⟨t, Outcome.raised MIKTEX_INTERNAL_ERROR⟩ := by
  simp [runpopenOpenPipe, hr, hw]

/-- An authorised call with the mode "r" or "w" opens the selected command
line once, logs no error and returns what the pipe opener gives, null if it
throws. -/
theorem runpopen_allowed_run (windows : Bool) (g : Globals) (session : Session)
    (commandLineArg mode : String)
    (hauth : runpopenAuthorised windows g session commandLineArg)
    (hmode : mode = "r" ∨ mode = "w") :
    openFileCalls (miktex_emulate__runpopen windows g session commandLineArg mode).trace
        = [(runpopenSelected windows g session commandLineArg, FileMode.Command,
            (if mode = "w" then FileAccess.Write else FileAccess.Read), true)]
    ∧ loggedErrors (miktex_emulate__runpopen windows g session commandLineArg mode).trace = []
    ∧ (miktex_emulate__runpopen windows g session commandLineArg mode).outcome
        = Outcome.returned
            (match session.OpenFile (runpopenSelected windows g session commandLineArg)
                FileMode.Command (if mode = "w" then FileAccess.Write else FileAccess.Read)
                true with
             | Except.ok file => file
             | Except.error _ => none) := by
  obtain ⟨t, hrun, hopen, herr, -, -, -⟩ :=
    runpopen_of_authorised windows g session commandLineArg mode hauth
  obtain ⟨hcalls, hout, -, -⟩ := runpopenOpenPipe_valid_mode session
    (runpopenVerdict windows session commandLineArg) mode t
    (runpopenSelected windows g session commandLineArg) hmode
  rw [hrun]
  refine ⟨by simpa [hopen] using hcalls, ?_, hout⟩
  rw [loggedErrors_runpopenOpenPipe, herr]


/-- C1: `miktex_emulate__shell_cmd_is_allowed` returns -1 exactly for the
verdict `SyntaxError`, 2 exactly for `ProbablySafe`, 0 exactly for `MaybeSafe`
and `NotSafe`; the return value is one of -1, 0, 2 and in particular never 1. -/
theorem shell_cmd_is_allowed_return_code (session : Session) (commandLine : String) :
    ((miktex_emulate__shell_cmd_is_allowed session commandLine).ret = -1
        ↔ (session.ExamineCommandLine commandLine).1 = ExamineCommandLineResult.SyntaxError)
    ∧ ((miktex_emulate__shell_cmd_is_allowed session commandLine).ret = 2
        ↔ (session.ExamineCommandLine commandLine).1 = ExamineCommandLineResult.ProbablySafe)
    ∧ ((miktex_emulate__shell_cmd_is_allowed session commandLine).ret = 0
        ↔ ((session.ExamineCommandLine commandLine).1 = ExamineCommandLineResult.MaybeSafe
          ∨ (session.ExamineCommandLine commandLine).1 = ExamineCommandLineResult.NotSafe))
    ∧ ((miktex_emulate__shell_cmd_is_allowed session commandLine).ret = -1
        ∨ (miktex_emulate__shell_cmd_is_allowed session commandLine).ret = 0
        ∨ (miktex_emulate__shell_cmd_is_allowed session commandLine).ret = 2)
    ∧ (miktex_emulate__shell_cmd_is_allowed session commandLine).ret ≠ 1 := by
  simp only [miktex_emulate__shell_cmd_is_allowed]
  cases (session.ExamineCommandLine commandLine).1 <;> simp

/-- C2: with shell escape enabled (the entry check `MIKTEX_EXPECT(shellenabledp)`
passed), a command line whose verdict is `SyntaxError` is denied whatever
`restrictedshell`, `lua_only`, the administrator status, the
allow-unrestricted-super-user flag and the mode are: the call returns null,
logs exactly one error, `"syntax error: "` followed by the argument, and
opens nothing. -/
theorem runpopen_syntax_error_denied (windows : Bool) (g : Globals) (session : Session)
    (commandLineArg mode : String) (hshell : g.shellenabledp ≠ 0)
    (hv : runpopenVerdict windows session commandLineArg
      = ExamineCommandLineResult.SyntaxError) :
    (miktex_emulate__runpopen windows g session commandLineArg mode).outcome
        = Outcome.returned none
    ∧ (miktex_emulate__runpopen windows g session commandLineArg mode).trace
        = [Event.ExamineCommandLine (runpopenCommandLine windows commandLineArg),
           Event.LogError ("syntax error: " ++ commandLineArg)]
    ∧ loggedErrors (miktex_emulate__runpopen windows g session commandLineArg mode).trace
        = ["syntax error" ++ (": " ++ commandLineArg)]
    ∧ openFileCalls (miktex_emulate__runpopen windows g session commandLineArg mode).trace
        = [] := by
  unfold runpopenVerdict at hv
  have hmsg : "syntax error: " ++ commandLineArg = "syntax error" ++ (": " ++ commandLineArg) := by
    rw [← String.append_assoc]; rfl
  simp [miktex_emulate__runpopen, hshell, hv, loggedErrors, openFileCalls, hmsg]

/-- Witness for C2: an administrator without the override flag, restricted
shell, lua-only mode. -/
theorem runpopen_syntax_error_denied_witness :
    (sampleGlobals 1 1).shellenabledp ≠ 0
    ∧ runpopenVerdict false (sampleSession ExamineCommandLineResult.SyntaxError true false)
        "echo \x22a" = ExamineCommandLineResult.SyntaxError
    ∧ (miktex_emulate__runpopen false (sampleGlobals 1 1)
        (sampleSession ExamineCommandLineResult.SyntaxError true false) "echo \x22a" "r").outcome
        = Outcome.returned none
    ∧ loggedErrors (miktex_emulate__runpopen false (sampleGlobals 1 1)
        (sampleSession ExamineCommandLineResult.SyntaxError true false) "echo \x22a" "r").trace
        = ["syntax error" ++ (": " ++ "echo \x22a")] :=
  have h := runpopen_syntax_error_denied false (sampleGlobals 1 1)
    (sampleSession ExamineCommandLineResult.SyntaxError true false) "echo \x22a" "r"
    (by decide) rfl
  ⟨by decide, rfl, h.1, h.2.2.1⟩

/-- C3: with shell escape enabled, a command line whose verdict is `NotSafe`
is denied whatever `restrictedshell`, `lua_only`, the administrator status,
the allow-unrestricted-super-user flag and the mode are: the call returns
null, logs exactly one error, `"command is unsafe: "` followed by the
argument, and opens nothing. -/
theorem runpopen_not_safe_denied (windows : Bool) (g : Globals) (session : Session)
    (commandLineArg mode : String) (hshell : g.shellenabledp ≠ 0)
    (hv : runpopenVerdict windows session commandLineArg
      = ExamineCommandLineResult.NotSafe) :
    (miktex_emulate__runpopen windows g session commandLineArg mode).outcome
        = Outcome.returned none
    ∧ (miktex_emulate__runpopen windows g session commandLineArg mode).trace
        = [Event.ExamineCommandLine (runpopenCommandLine windows commandLineArg),
           Event.LogError ("command is unsafe: " ++ commandLineArg)]
    ∧ loggedErrors (miktex_emulate__runpopen windows g session commandLineArg mode).trace
        = ["command is unsafe" ++ (": " ++ commandLineArg)]
    ∧ openFileCalls (miktex_emulate__runpopen windows g session commandLineArg mode).trace
        = [] := by
  unfold runpopenVerdict at hv
  have hmsg : "command is unsafe: " ++ commandLineArg
      = "command is unsafe" ++ (": " ++ commandLineArg) := by
    rw [← String.append_assoc]; rfl
  simp [miktex_emulate__runpopen, hshell, hv, loggedErrors, openFileCalls, hmsg]

/-- Witness for C3: no restricted shell, no administrator, override flag set. -/
theorem runpopen_not_safe_denied_witness :
    (sampleGlobals 0 0).shellenabledp ≠ 0
    ∧ runpopenVerdict true (sampleSession ExamineCommandLineResult.NotSafe false true)
        "rm -rf x" = ExamineCommandLineResult.NotSafe
    ∧ (miktex_emulate__runpopen true (sampleGlobals 0 0)
        (sampleSession ExamineCommandLineResult.NotSafe false true) "rm -rf x" "w").outcome
        = Outcome.returned none
    ∧ openFileCalls (miktex_emulate__runpopen true (sampleGlobals 0 0)
        (sampleSession ExamineCommandLineResult.NotSafe false true) "rm -rf x" "w").trace
        = [] :=
  have h := runpopen_not_safe_denied true (sampleGlobals 0 0)
    (sampleSession ExamineCommandLineResult.NotSafe false true) "rm -rf x" "w"
    (by decide) rfl
  ⟨by decide, rfl, h.1, h.2.2.2⟩

/-- C4, as stated, fails: in restricted mode a command line with the verdict
`NotSafe` (a verdict other than `ProbablySafe`) is denied, but the error that
is logged is "command is unsafe", not "command not allowed". -/
theorem runpopen_restricted_not_allowed_counterexample :
    (sampleGlobals 0 1).restrictedshell ≠ 0
    ∧ runpopenVerdict false (sampleSession ExamineCommandLineResult.NotSafe false false)
        "ls | grep foo" ≠ ExamineCommandLineResult.ProbablySafe
    ∧ loggedErrors (miktex_emulate__runpopen false (sampleGlobals 0 1)
        (sampleSession ExamineCommandLineResult.NotSafe false false) "ls | grep foo" "r").trace
        = ["command is unsafe: ls | grep foo"]
    ∧ "command not allowed: ls | grep foo" ∉
        loggedErrors (miktex_emulate__runpopen false (sampleGlobals 0 1)
        (sampleSession ExamineCommandLineResult.NotSafe false false) "ls | grep foo" "r").trace := by
  decide

/-- C4, amended: with shell escape enabled and `restrictedshell` set, every
command line whose verdict is not `ProbablySafe` is denied (null is returned
and nothing is opened); the error logged is "command not allowed" for the
verdict `MaybeSafe`, "command is unsafe" for `NotSafe` and "syntax error" for
`SyntaxError`. -/
theorem runpopen_restricted_denied (windows : Bool) (g : Globals) (session : Session)
    (commandLineArg mode : String) (hshell : g.shellenabledp ≠ 0)
    (hres : g.restrictedshell ≠ 0)
    (hv : runpopenVerdict windows session commandLineArg
      ≠ ExamineCommandLineResult.ProbablySafe) :
    (miktex_emulate__runpopen windows g session commandLineArg mode).outcome
        = Outcome.returned none
    ∧ openFileCalls (miktex_emulate__runpopen windows g session commandLineArg mode).trace
        = []
    ∧ (runpopenVerdict windows session commandLineArg = ExamineCommandLineResult.MaybeSafe →
        (miktex_emulate__runpopen windows g session commandLineArg mode).trace
          = [Event.ExamineCommandLine (runpopenCommandLine windows commandLineArg),
             Event.LogError ("command not allowed: " ++ commandLineArg)])
    ∧ (runpopenVerdict windows session commandLineArg = ExamineCommandLineResult.NotSafe →
        loggedErrors (miktex_emulate__runpopen windows g session commandLineArg mode).trace
          = ["command is unsafe: " ++ commandLineArg])
    ∧ (runpopenVerdict windows session commandLineArg = ExamineCommandLineResult.SyntaxError →
        loggedErrors (miktex_emulate__runpopen windows g session commandLineArg mode).trace
          = ["syntax error: " ++ commandLineArg]) := by
  unfold runpopenVerdict at hv ⊢
  simp only [miktex_emulate__runpopen]
  rcases h : session.ExamineCommandLine (runpopenCommandLine windows commandLineArg)
    with ⟨v, c, s⟩
  rw [h] at hv
  cases v <;> simp_all [loggedErrors, openFileCalls]

/-- Witness for C4 (amended): the verdict `MaybeSafe` in restricted mode. -/
theorem runpopen_restricted_denied_witness :
    (sampleGlobals 0 1).shellenabledp ≠ 0
    ∧ (sampleGlobals 0 1).restrictedshell ≠ 0
    ∧ runpopenVerdict false (sampleSession ExamineCommandLineResult.MaybeSafe false false)
        "ls | grep foo" ≠ ExamineCommandLineResult.ProbablySafe
    ∧ (miktex_emulate__runpopen false (sampleGlobals 0 1)
        (sampleSession ExamineCommandLineResult.MaybeSafe false false) "ls | grep foo" "r").outcome
        = Outcome.returned none
    ∧ (miktex_emulate__runpopen false (sampleGlobals 0 1)
        (sampleSession ExamineCommandLineResult.MaybeSafe false false) "ls | grep foo" "r").trace
        = [Event.ExamineCommandLine (runpopenCommandLine false "ls | grep foo"),
           Event.LogError ("command not allowed: " ++ "ls | grep foo")] :=
  have h := runpopen_restricted_denied false (sampleGlobals 0 1)
    (sampleSession ExamineCommandLineResult.MaybeSafe false false) "ls | grep foo" "r"
    (by decide) (by decide) (by decide)
  ⟨by decide, by decide, by decide, h.1, h.2.2.1 rfl⟩

/-- C5: with shell escape enabled, `restrictedshell` set, the verdict
`ProbablySafe` and the mode "r" or "w", the command is allowed: the pipe
opener is called exactly once, in Command mode, with the safe command line of
the examination; the only log line is an Info announcement; the stream of
the pipe opener is returned; the argument is not handed to the pipe opener
unless the safe command line happens to equal it. A session that differs only
in the administrator status and in its configuration values gives the same
run. -/
theorem runpopen_restricted_probably_safe_allowed (windows : Bool) (g : Globals)
    (session : Session) (commandLineArg mode : String) (hshell : g.shellenabledp ≠ 0)
    (hres : g.restrictedshell ≠ 0)
    (hv : runpopenVerdict windows session commandLineArg
      = ExamineCommandLineResult.ProbablySafe)
    (hmode : mode = "r" ∨ mode = "w") :
    openFileCalls (miktex_emulate__runpopen windows g session commandLineArg mode).trace
        = [(runpopenSafeCommandLine windows session commandLineArg, FileMode.Command,
            (if mode = "w" then FileAccess.Write else FileAccess.Read), true)]
    ∧ (miktex_emulate__runpopen windows g session commandLineArg mode).trace
        = [Event.ExamineCommandLine (runpopenCommandLine windows commandLineArg),
           Event.LogInfo ("initiating restricted " ++ (if mode = "w" then "output" else "input")
              ++ " pipe stream: " ++ runpopenSafeCommandLine windows session commandLineArg),
           Event.OpenFile (runpopenSafeCommandLine windows session commandLineArg)
              FileMode.Command (if mode = "w" then FileAccess.Write else FileAccess.Read) true]
    ∧ (miktex_emulate__runpopen windows g session commandLineArg mode).outcome
        = Outcome.returned
            (match session.OpenFile (runpopenSafeCommandLine windows session commandLineArg)
                FileMode.Command (if mode = "w" then FileAccess.Write else FileAccess.Read)
                true with
             | Except.ok file => file
             | Except.error _ => none)
    ∧ loggedErrors (miktex_emulate__runpopen windows g session commandLineArg mode).trace = []
    ∧ loggedWarnings (miktex_emulate__runpopen windows g session commandLineArg mode).trace = []
    ∧ (runpopenSafeCommandLine windows session commandLineArg ≠ commandLineArg →
        ∀ m a b, (commandLineArg, m, a, b) ∉ openFileCalls
          (miktex_emulate__runpopen windows g session commandLineArg mode).trace)
    ∧ (∀ (admin : Bool) (config : ConfigSection → ConfigValueName → ConfigValue),
        miktex_emulate__runpopen windows g
            { session with RunningAsAdministrator := admin, GetConfigValue := config }
            commandLineArg mode
          = miktex_emulate__runpopen windows g session commandLineArg mode) := by
  unfold runpopenVerdict at hv
  unfold runpopenSafeCommandLine
  rcases hmode with hm | hm <;> subst hm <;>
    simp [miktex_emulate__runpopen, runpopenOpenPipe, hshell, hres, hv, loggedErrors,
      loggedWarnings, openFileCalls] <;>
    (intro hne m a heq; exact absurd heq.symm hne)

/-- Witness for C5: `kpsewhich article.cls` in restricted mode. -/
theorem runpopen_restricted_probably_safe_allowed_witness :
    (sampleGlobals 0 1).shellenabledp ≠ 0
    ∧ (sampleGlobals 0 1).restrictedshell ≠ 0
    ∧ runpopenVerdict false (sampleSession ExamineCommandLineResult.ProbablySafe true false)
        "kpsewhich  article.cls" = ExamineCommandLineResult.ProbablySafe
    ∧ openFileCalls (miktex_emulate__runpopen false (sampleGlobals 0 1)
        (sampleSession ExamineCommandLineResult.ProbablySafe true false)
        "kpsewhich  article.cls" "r").trace
        = [("kpsewhich article.cls", FileMode.Command, FileAccess.Read, true)] :=
  have h := runpopen_restricted_probably_safe_allowed false (sampleGlobals 0 1)
    (sampleSession ExamineCommandLineResult.ProbablySafe true false)
    "kpsewhich  article.cls" "r" (by decide) (by decide) rfl (Or.inl rfl)
  ⟨by decide, by decide, rfl, h.1⟩

/-- C6: with shell escape enabled, `restrictedshell` not set, the process
running as administrator, the allow-unrestricted-super-user flag false and
`lua_only` zero, the call returns null and opens nothing, whatever the
verdict of the examination is. -/
theorem runpopen_admin_denied (windows : Bool) (g : Globals) (session : Session)
    (commandLineArg mode : String) (hshell : g.shellenabledp ≠ 0)
    (hres : g.restrictedshell = 0) (hadmin : session.RunningAsAdministrator = true)
    (hallow : allowUnrestrictedSuperUser session = false) (_hlua : g.lua_only = 0) :
    (miktex_emulate__runpopen windows g session commandLineArg mode).outcome
        = Outcome.returned none
    ∧ openFileCalls (miktex_emulate__runpopen windows g session commandLineArg mode).trace
        = []
    ∧ (∃ msg, loggedErrors
        (miktex_emulate__runpopen windows g session commandLineArg mode).trace = [msg]) := by
  unfold allowUnrestrictedSuperUser at hallow
  simp only [miktex_emulate__runpopen]
  rcases h : session.ExamineCommandLine (runpopenCommandLine windows commandLineArg)
    with ⟨v, c, s⟩
  cases v <;> simp_all [loggedErrors, openFileCalls]

/-- Witness for C6: the verdict `ProbablySafe` for an administrator. -/
theorem runpopen_admin_denied_witness :
    (sampleGlobals 0 0).shellenabledp ≠ 0
    ∧ (sampleGlobals 0 0).restrictedshell = 0
    ∧ (sampleSession ExamineCommandLineResult.ProbablySafe true false).RunningAsAdministrator
        = true
    ∧ allowUnrestrictedSuperUser (sampleSession ExamineCommandLineResult.ProbablySafe true false)
        = false
    ∧ (sampleGlobals 0 0).lua_only = 0
    ∧ (miktex_emulate__runpopen false (sampleGlobals 0 0)
        (sampleSession ExamineCommandLineResult.ProbablySafe true false)
        "gs -q -o out.png in.ps" "r").outcome = Outcome.returned none :=
  have h := runpopen_admin_denied false (sampleGlobals 0 0)
    (sampleSession ExamineCommandLineResult.ProbablySafe true false)
    "gs -q -o out.png in.ps" "r" (by decide) rfl rfl rfl rfl
  ⟨by decide, rfl, rfl, rfl, rfl, h.1⟩

/-- C7, evaluated: with `lua_only` set, `restrictedshell` not set, an
administrator without the allow-unrestricted-super-user flag and the verdict
`ProbablySafe`, the call is denied with "not allowed with elevated
privileges" and opens nothing; `lua_only` is not read. -/
theorem runpopen_lua_only_admin_denied :
    (sampleGlobals 1 0).lua_only ≠ 0
    ∧ (sampleGlobals 1 0).restrictedshell = 0
    ∧ (miktex_emulate__runpopen false (sampleGlobals 1 0)
        (sampleSession ExamineCommandLineResult.ProbablySafe true false)
        "kpsewhich article.cls" "r").trace
        = [Event.ExamineCommandLine "kpsewhich article.cls",
           Event.RunningAsAdministrator,
           Event.GetConfigValue ConfigSection.CORE ConfigValueName.ALLOW_UNRESTRICTED_SUPER_USER,
           Event.LogError "not allowed with elevated privileges: kpsewhich article.cls"]
    ∧ (miktex_emulate__runpopen false (sampleGlobals 1 0)
        (sampleSession ExamineCommandLineResult.ProbablySafe true false)
        "kpsewhich article.cls" "r").outcome = Outcome.returned none := by
  decide

/-- C8, as stated, fails on a Windows build: the single quotes of the argument
are replaced by double quotes before the command line is examined and run, so
the string handed to the pipe opener is not the argument. -/
theorem runpopen_unrestricted_original_counterexample :
    (sampleGlobals 0 0).restrictedshell = 0
    ∧ (sampleSession ExamineCommandLineResult.ProbablySafe false false).RunningAsAdministrator
        = false
    ∧ runpopenVerdict true (sampleSession ExamineCommandLineResult.ProbablySafe false false)
        "echo \x27a\x27" = ExamineCommandLineResult.ProbablySafe
    ∧ openFileCalls (miktex_emulate__runpopen true (sampleGlobals 0 0)
        (sampleSession ExamineCommandLineResult.ProbablySafe false false)
        "echo \x27a\x27" "r").trace
        = [("echo \x22a\x22", FileMode.Command, FileAccess.Read, true)]
    ∧ "echo \x22a\x22" ≠ "echo \x27a\x27" := by
  decide

/-- C8, amended: with shell escape enabled, `restrictedshell` not set, the
privilege check passed (not an administrator, or the override flag set), the
verdict `ProbablySafe` or `MaybeSafe` and the mode "r" or "w", the pipe opener
is called exactly once, with the local command line of the function (never
with the safe command line as such): the argument itself, except that a
Windows build has replaced each single quote in it by a double quote. The
announcement is the only log line: at Info level for `ProbablySafe`, at Warn
level for `MaybeSafe`. -/
theorem runpopen_unrestricted_allowed (windows : Bool) (g : Globals) (session : Session)
    (commandLineArg mode : String) (hshell : g.shellenabledp ≠ 0)
    (hres : g.restrictedshell = 0)
    (hpriv : ¬ (session.RunningAsAdministrator = true
      ∧ allowUnrestrictedSuperUser session = false))
    (hv : runpopenVerdict windows session commandLineArg = ExamineCommandLineResult.ProbablySafe
      ∨ runpopenVerdict windows session commandLineArg = ExamineCommandLineResult.MaybeSafe)
    (hmode : mode = "r" ∨ mode = "w") :
    openFileCalls (miktex_emulate__runpopen windows g session commandLineArg mode).trace
        = [(runpopenCommandLine windows commandLineArg, FileMode.Command,
            (if mode = "w" then FileAccess.Write else FileAccess.Read), true)]
    ∧ (windows = false → runpopenCommandLine windows commandLineArg = commandLineArg)
    ∧ (windows = true → runpopenCommandLine windows commandLineArg
        = replaceChar (Char.ofNat 39) (Char.ofNat 34) commandLineArg)
    ∧ (runpopenVerdict windows session commandLineArg = ExamineCommandLineResult.ProbablySafe →
        loggedInfos (miktex_emulate__runpopen windows g session commandLineArg mode).trace
          = ["initiating restricted " ++ (if mode = "w" then "output" else "input")
              ++ " pipe stream: " ++ runpopenCommandLine windows commandLineArg]
        ∧ loggedWarnings (miktex_emulate__runpopen windows g session commandLineArg mode).trace
          = [])
    ∧ (runpopenVerdict windows session commandLineArg = ExamineCommandLineResult.MaybeSafe →
        loggedWarnings (miktex_emulate__runpopen windows g session commandLineArg mode).trace
          = ["initiating unrestricted " ++ (if mode = "w" then "output" else "input")
              ++ " pipe stream: " ++ runpopenCommandLine windows commandLineArg]
        ∧ loggedInfos (miktex_emulate__runpopen windows g session commandLineArg mode).trace
          = [])
    ∧ loggedErrors (miktex_emulate__runpopen windows g session commandLineArg mode).trace
        = [] := by
  unfold runpopenVerdict at hv ⊢
  unfold allowUnrestrictedSuperUser at hpriv
  simp only [miktex_emulate__runpopen, runpopenOpenPipe]
  rcases h : session.ExamineCommandLine (runpopenCommandLine windows commandLineArg)
    with ⟨v, c, s⟩
  rw [h] at hv
  by_cases hadmin : session.RunningAsAdministrator = true <;>
    rcases hv with hv | hv <;> simp only at hv <;> subst hv <;>
    rcases hmode with hm | hm <;> subst hm <;>
    simp_all [loggedErrors, loggedWarnings, loggedInfos, openFileCalls, runpopenCommandLine]

/-- Witness for C8 (amended): `gs` run by a user who is not an administrator. -/
theorem runpopen_unrestricted_allowed_witness :
    (sampleGlobals 0 0).shellenabledp ≠ 0
    ∧ (sampleGlobals 0 0).restrictedshell = 0
    ∧ ¬ ((sampleSession ExamineCommandLineResult.ProbablySafe false false).RunningAsAdministrator
          = true
        ∧ allowUnrestrictedSuperUser
          (sampleSession ExamineCommandLineResult.ProbablySafe false false) = false)
    ∧ runpopenVerdict false (sampleSession ExamineCommandLineResult.ProbablySafe false false)
        "gs -q -o out.png in.ps" = ExamineCommandLineResult.ProbablySafe
    ∧ openFileCalls (miktex_emulate__runpopen false (sampleGlobals 0 0)
        (sampleSession ExamineCommandLineResult.ProbablySafe false false)
        "gs -q -o out.png in.ps" "r").trace
        = [(runpopenCommandLine false "gs -q -o out.png in.ps", FileMode.Command,
            (if ("r" : String) = "w" then FileAccess.Write else FileAccess.Read), true)] :=
  have h := runpopen_unrestricted_allowed false (sampleGlobals 0 0)
    (sampleSession ExamineCommandLineResult.ProbablySafe false false)
    "gs -q -o out.png in.ps" "r" (by decide) rfl (by decide) (Or.inl rfl) (Or.inl rfl)
  ⟨by decide, rfl, by decide, rfl, h.1⟩

/-- C9, as stated, fails: with `shellenabledp` zero the entry check raises the
internal error, and so does an authorised command whose mode is neither "r"
nor "w". -/
theorem runpopen_never_raises_counterexample :
    (miktex_emulate__runpopen false (Globals.mk 0 0 0)
        (sampleSession ExamineCommandLineResult.ProbablySafe false false)
        "kpsewhich article.cls" "r").outcome = Outcome.raised MIKTEX_INTERNAL_ERROR
    ∧ (miktex_emulate__runpopen false (sampleGlobals 0 0)
        (sampleSession ExamineCommandLineResult.ProbablySafe false false)
        "kpsewhich article.cls" "rb").outcome = Outcome.raised MIKTEX_INTERNAL_ERROR := by
  decide

/-- C9, amended: `miktex_emulate__runpopen` raises exactly when `shellenabledp`
is zero, or when the command passes authorisation and the mode is neither "r"
nor "w"; what it raises is the internal error, before any pipe is opened. In
every other case it returns: with shell escape enabled and the mode "r" or
"w" it never raises, every denial (a logged error) returns null, and a
`MiKTeXException` of the pipe opener is turned into the null return value. -/
theorem runpopen_raises_iff (windows : Bool) (g : Globals) (session : Session)
    (commandLineArg mode : String) :
    ((∃ e, (miktex_emulate__runpopen windows g session commandLineArg mode).outcome
          = Outcome.raised e)
      ↔ (g.shellenabledp = 0
        ∨ ((mode ≠ "r" ∧ mode ≠ "w")
          ∧ ((g.restrictedshell ≠ 0
              ∧ runpopenVerdict windows session commandLineArg
                = ExamineCommandLineResult.ProbablySafe)
            ∨ (g.restrictedshell = 0
              ∧ (runpopenVerdict windows session commandLineArg
                  = ExamineCommandLineResult.ProbablySafe
                ∨ runpopenVerdict windows session commandLineArg
                  = ExamineCommandLineResult.MaybeSafe)
              ∧ ¬ (session.RunningAsAdministrator = true
                ∧ allowUnrestrictedSuperUser session = false))))))
    ∧ (∀ e, (miktex_emulate__runpopen windows g session commandLineArg mode).outcome
          = Outcome.raised e →
        e = MIKTEX_INTERNAL_ERROR
        ∧ openFileCalls (miktex_emulate__runpopen windows g session commandLineArg mode).trace
          = [])
    ∧ (g.shellenabledp ≠ 0 → (mode = "r" ∨ mode = "w") →
        ∃ file, (miktex_emulate__runpopen windows g session commandLineArg mode).outcome
          = Outcome.returned file)
    ∧ (loggedErrors (miktex_emulate__runpopen windows g session commandLineArg mode).trace ≠ [] →
        (miktex_emulate__runpopen windows g session commandLineArg mode).outcome
          = Outcome.returned none)
    ∧ (∀ path m a b e,
        (path, m, a, b) ∈ openFileCalls
          (miktex_emulate__runpopen windows g session commandLineArg mode).trace →
        session.OpenFile path m a b = Except.error e →
        (miktex_emulate__runpopen windows g session commandLineArg mode).outcome
          = Outcome.returned none) := by
  rcases runpopen_gate_cases windows g session commandLineArg mode with
    ⟨h0, hrun⟩ | ⟨h0, hv, hrun⟩ | ⟨h0, hv, hrun⟩ | ⟨h0, hres, hv, hrun⟩
    | ⟨h0, hres, hv, hrun⟩ | ⟨h0, hres, hv, hadm, hallow, hrun⟩
    | ⟨h0, hres, hv, hadm, hallow, hrun⟩ | ⟨h0, hres, hv, hadm, hrun⟩
  · simp [hrun, h0, loggedErrors, openFileCalls]
  · simp [hrun, h0, hv, loggedErrors, openFileCalls]
  · simp [hrun, h0, hv, loggedErrors, openFileCalls]
  · simp [hrun, h0, hres, hv, loggedErrors, openFileCalls]
  · rcases runpopenOpenPipe_cases session ExamineCommandLineResult.ProbablySafe mode
      [Event.ExamineCommandLine (runpopenCommandLine windows commandLineArg)]
      (runpopenSafeCommandLine windows session commandLineArg) with
      ⟨hm, hp⟩ | ⟨hm, hp⟩ | ⟨hw, hr, hp⟩
    · rw [hp] at hrun
      subst hm
      simp only [hrun]
      refine ⟨by simp [h0, hres, hv], by simp, by simp, by simp [loggedErrors], ?_⟩
      intro path m a b e hmem hopen
      simp [openFileCalls] at hmem
      obtain ⟨rfl, rfl, rfl, rfl⟩ := hmem
      simp [hopen]
    · rw [hp] at hrun
      subst hm
      simp only [hrun]
      refine ⟨by simp [h0, hres, hv], by simp, by simp, by simp [loggedErrors], ?_⟩
      intro path m a b e hmem hopen
      simp [openFileCalls] at hmem
      obtain ⟨rfl, rfl, rfl, rfl⟩ := hmem
      simp [hopen]
    · rw [hp] at hrun
      simp [hrun, h0, hres, hv, hw, hr, loggedErrors, openFileCalls]
  · rcases hv with hv | hv <;>
      simp [hrun, h0, hres, hv, hadm, hallow, loggedErrors, openFileCalls]
  · rcases runpopenOpenPipe_cases session (runpopenVerdict windows session commandLineArg) mode
      [Event.ExamineCommandLine (runpopenCommandLine windows commandLineArg),
        Event.RunningAsAdministrator,
        Event.GetConfigValue ConfigSection.CORE ConfigValueName.ALLOW_UNRESTRICTED_SUPER_USER]
      (runpopenCommandLine windows commandLineArg) with
      ⟨hm, hp⟩ | ⟨hm, hp⟩ | ⟨hw, hr, hp⟩
    · rw [hp] at hrun
      subst hm
      simp only [hrun]
      refine ⟨by simp [h0], by simp, by simp, ?_, ?_⟩
      · rcases hv with hv | hv <;> simp [hv, loggedErrors]
      · intro path m a b e hmem hopen
        rcases hv with hv | hv <;>
          (simp [hv, openFileCalls] at hmem
           obtain ⟨rfl, rfl, rfl, rfl⟩ := hmem
           simp [hopen])
    · rw [hp] at hrun
      subst hm
      simp only [hrun]
      refine ⟨by simp [h0], by simp, by simp, ?_, ?_⟩
      · rcases hv with hv | hv <;> simp [hv, loggedErrors]
      · intro path m a b e hmem hopen
        rcases hv with hv | hv <;>
          (simp [hv, openFileCalls] at hmem
           obtain ⟨rfl, rfl, rfl, rfl⟩ := hmem
           simp [hopen])
    · rw [hp] at hrun
      rcases hv with hv | hv <;>
        simp [hrun, h0, hres, hv, hw, hr, hadm, hallow, loggedErrors, openFileCalls]
  · rcases runpopenOpenPipe_cases session (runpopenVerdict windows session commandLineArg) mode
      [Event.ExamineCommandLine (runpopenCommandLine windows commandLineArg),
        Event.RunningAsAdministrator]
      (runpopenCommandLine windows commandLineArg) with
      ⟨hm, hp⟩ | ⟨hm, hp⟩ | ⟨hw, hr, hp⟩
    · rw [hp] at hrun
      subst hm
      simp only [hrun]
      refine ⟨by simp [h0], by simp, by simp, ?_, ?_⟩
      · rcases hv with hv | hv <;> simp [hv, loggedErrors]
      · intro path m a b e hmem hopen
        rcases hv with hv | hv <;>
          (simp [hv, openFileCalls] at hmem
           obtain ⟨rfl, rfl, rfl, rfl⟩ := hmem
           simp [hopen])
    · rw [hp] at hrun
      subst hm
      simp only [hrun]
      refine ⟨by simp [h0], by simp, by simp, ?_, ?_⟩
      · rcases hv with hv | hv <;> simp [hv, loggedErrors]
      · intro path m a b e hmem hopen
        rcases hv with hv | hv <;>
          (simp [hv, openFileCalls] at hmem
           obtain ⟨rfl, rfl, rfl, rfl⟩ := hmem
           simp [hopen])
    · rw [hp] at hrun
      rcases hv with hv | hv <;>
        simp [hrun, h0, hres, hv, hw, hr, hadm, loggedErrors, openFileCalls]

/-- C10: denial is a hard stop. An error is logged exactly when one of the
four denial branches is taken, the message is that of the branch, and then
the pipe opener is not called and null is returned. In every call the pipe
opener is called at most once, always in Command mode, and only with the
command line selected by the authorisation rules: the safe command line when
`restrictedshell` is set (the verdict then being `ProbablySafe`), the local
command line otherwise (the verdict being `ProbablySafe` or `MaybeSafe` and
the privilege check passed). -/
theorem runpopen_denial_hard_stop (windows : Bool) (g : Globals) (session : Session)
    (commandLineArg mode : String) :
    (loggedErrors (miktex_emulate__runpopen windows g session commandLineArg mode).trace ≠ []
      ↔ (g.shellenabledp ≠ 0
        ∧ (runpopenVerdict windows session commandLineArg = ExamineCommandLineResult.SyntaxError
          ∨ runpopenVerdict windows session commandLineArg = ExamineCommandLineResult.NotSafe
          ∨ (g.restrictedshell ≠ 0
            ∧ runpopenVerdict windows session commandLineArg
              ≠ ExamineCommandLineResult.ProbablySafe)
          ∨ (g.restrictedshell = 0 ∧ session.RunningAsAdministrator = true
            ∧ allowUnrestrictedSuperUser session = false))))
    ∧ (∀ msg ∈ loggedErrors
          (miktex_emulate__runpopen windows g session commandLineArg mode).trace,
        msg = "syntax error: " ++ commandLineArg
        ∨ msg = "command is unsafe: " ++ commandLineArg
        ∨ msg = "command not allowed: " ++ commandLineArg
        ∨ msg = "not allowed with elevated privileges: " ++ commandLineArg)
    ∧ (loggedErrors (miktex_emulate__runpopen windows g session commandLineArg mode).trace ≠ [] →
        openFileCalls (miktex_emulate__runpopen windows g session commandLineArg mode).trace
          = []
        ∧ (miktex_emulate__runpopen windows g session commandLineArg mode).outcome
          = Outcome.returned none)
    ∧ (openFileCalls
        (miktex_emulate__runpopen windows g session commandLineArg mode).trace).length ≤ 1
    ∧ (∀ call ∈ openFileCalls
          (miktex_emulate__runpopen windows g session commandLineArg mode).trace,
        call.2.1 = FileMode.Command
        ∧ (g.restrictedshell ≠ 0 →
            call.1 = runpopenSafeCommandLine windows session commandLineArg
            ∧ runpopenVerdict windows session commandLineArg
              = ExamineCommandLineResult.ProbablySafe)
        ∧ (g.restrictedshell = 0 →
            call.1 = runpopenCommandLine windows commandLineArg
            ∧ (runpopenVerdict windows session commandLineArg
                = ExamineCommandLineResult.ProbablySafe
              ∨ runpopenVerdict windows session commandLineArg
                = ExamineCommandLineResult.MaybeSafe)
            ∧ ¬ (session.RunningAsAdministrator = true
              ∧ allowUnrestrictedSuperUser session = false))) := by
  rcases runpopen_gate_cases windows g session commandLineArg mode with
    ⟨h0, hrun⟩ | ⟨h0, hv, hrun⟩ | ⟨h0, hv, hrun⟩ | ⟨h0, hres, hv, hrun⟩
    | ⟨h0, hres, hv, hrun⟩ | ⟨h0, hres, hv, hadm, hallow, hrun⟩
    | ⟨h0, hres, hv, hadm, hallow, hrun⟩ | ⟨h0, hres, hv, hadm, hrun⟩
  · simp [hrun, h0, loggedErrors, openFileCalls]
  · simp [hrun, h0, hv, loggedErrors, openFileCalls]
  · simp [hrun, h0, hv, loggedErrors, openFileCalls]
  · simp [hrun, h0, hres, hv, loggedErrors, openFileCalls]
  · rcases runpopenOpenPipe_cases session ExamineCommandLineResult.ProbablySafe mode
      [Event.ExamineCommandLine (runpopenCommandLine windows commandLineArg)]
      (runpopenSafeCommandLine windows session commandLineArg) with
      ⟨_, hp⟩ | ⟨_, hp⟩ | ⟨_, _, hp⟩ <;>
      (rw [hp] at hrun
       simp [hrun, h0, hres, hv, loggedErrors, openFileCalls])
  · rcases hv with hv | hv <;>
      simp [hrun, h0, hres, hv, hadm, hallow, loggedErrors, openFileCalls]
  · rcases runpopenOpenPipe_cases session (runpopenVerdict windows session commandLineArg) mode
      [Event.ExamineCommandLine (runpopenCommandLine windows commandLineArg),
        Event.RunningAsAdministrator,
        Event.GetConfigValue ConfigSection.CORE ConfigValueName.ALLOW_UNRESTRICTED_SUPER_USER]
      (runpopenCommandLine windows commandLineArg) with
      ⟨_, hp⟩ | ⟨_, hp⟩ | ⟨_, _, hp⟩ <;>
      (rw [hp] at hrun
       rcases hv with hv | hv <;>
         simp [hrun, h0, hres, hv, hadm, hallow, loggedErrors, openFileCalls])
  · rcases runpopenOpenPipe_cases session (runpopenVerdict windows session commandLineArg) mode
      [Event.ExamineCommandLine (runpopenCommandLine windows commandLineArg),
        Event.RunningAsAdministrator]
      (runpopenCommandLine windows commandLineArg) with
      ⟨_, hp⟩ | ⟨_, hp⟩ | ⟨_, _, hp⟩ <;>
      (rw [hp] at hrun
       rcases hv with hv | hv <;>
         simp [hrun, h0, hres, hv, hadm, loggedErrors, openFileCalls])

/-- C11: `miktex_allow_unrestricted_shell_escape` returns 1 exactly when
`lua_only` is non-zero, or the process does not run as administrator, or the
allow-unrestricted-super-user flag is set, and 0 otherwise; the result is 0
or 1, and for an administrator it is 1 exactly with the flag or in lua-only
mode. -/
theorem allow_unrestricted_shell_escape_iff (g : Globals) (session : Session) :
    ((miktex_allow_unrestricted_shell_escape g session).outcome = Outcome.returned 1
      ↔ (g.lua_only ≠ 0 ∨ session.RunningAsAdministrator = false
        ∨ allowUnrestrictedSuperUser session = true))
    ∧ ((miktex_allow_unrestricted_shell_escape g session).outcome = Outcome.returned 0
      ↔ ¬ (g.lua_only ≠ 0 ∨ session.RunningAsAdministrator = false
        ∨ allowUnrestrictedSuperUser session = true))
    ∧ ((miktex_allow_unrestricted_shell_escape g session).outcome = Outcome.returned 0
      ∨ (miktex_allow_unrestricted_shell_escape g session).outcome = Outcome.returned 1)
    ∧ (session.RunningAsAdministrator = true →
        ((miktex_allow_unrestricted_shell_escape g session).outcome = Outcome.returned 1
          ↔ (allowUnrestrictedSuperUser session = true ∨ g.lua_only ≠ 0))) := by
  unfold allowUnrestrictedSuperUser
  simp only [miktex_allow_unrestricted_shell_escape]
  by_cases hlua : g.lua_only = 0 <;>
    by_cases hadmin : session.RunningAsAdministrator = true <;>
    by_cases hallow : (session.GetConfigValue ConfigSection.CORE
      ConfigValueName.ALLOW_UNRESTRICTED_SUPER_USER).GetBool = true <;>
    simp [hlua, hadmin, hallow]

/-- C12: for every command line and every verdict,
`miktex_emulate__shell_cmd_is_allowed` stores the second component of the
examination (the command) in `*examinedCommandRet` and the third component
(the safe command line) in `*safeCommandLineRet`; on a session whose two
components differ, also with the verdict `SyntaxError`, the outputs are not
swapped. -/
theorem shell_cmd_is_allowed_outputs (session : Session) (commandLine : String) :
    (miktex_emulate__shell_cmd_is_allowed session commandLine).examinedCommandRet
        = (session.ExamineCommandLine commandLine).2.1
    ∧ (miktex_emulate__shell_cmd_is_allowed session commandLine).safeCommandLineRet
        = (session.ExamineCommandLine commandLine).2.2
    ∧ (miktex_emulate__shell_cmd_is_allowed
        (sampleSession ExamineCommandLineResult.SyntaxError false false)
        commandLine).examinedCommandRet = "kpsewhich"
    ∧ (miktex_emulate__shell_cmd_is_allowed
        (sampleSession ExamineCommandLineResult.SyntaxError false false)
        commandLine).safeCommandLineRet = "kpsewhich article.cls" := by
  simp [miktex_emulate__shell_cmd_is_allowed, sampleSession]

/-- C15, as stated, fails: in unrestricted mode a command with the verdict
`ProbablySafe` is allowed and announced as "initiating restricted input pipe
stream". -/
theorem runpopen_announcement_counterexample :
    (sampleGlobals 0 0).restrictedshell = 0
    ∧ openFileCalls (miktex_emulate__runpopen false (sampleGlobals 0 0)
        (sampleSession ExamineCommandLineResult.ProbablySafe false false)
        "gs -q -o out.png in.ps" "r").trace
        = [("gs -q -o out.png in.ps", FileMode.Command, FileAccess.Read, true)]
    ∧ loggedInfos (miktex_emulate__runpopen false (sampleGlobals 0 0)
        (sampleSession ExamineCommandLineResult.ProbablySafe false false)
        "gs -q -o out.png in.ps" "r").trace
        = ["initiating restricted input pipe stream: gs -q -o out.png in.ps"]
    ∧ loggedWarnings (miktex_emulate__runpopen false (sampleGlobals 0 0)
        (sampleSession ExamineCommandLineResult.ProbablySafe false false)
        "gs -q -o out.png in.ps" "r").trace = [] := by
  decide

/-- C15, amended: the text of the announcement follows the verdict, not the
mode. Whenever `miktex_emulate__runpopen` allows a command (mode "r" or "w"),
it logs exactly one announcement: "initiating restricted ... pipe stream" at
Info level when the verdict is `ProbablySafe`, under `restrictedshell` or
not, and "initiating unrestricted ... pipe stream" at Warn level when the
verdict is `MaybeSafe`, which happens only when `restrictedshell` is not
set. -/
theorem runpopen_announcement (windows : Bool) (g : Globals) (session : Session)
    (commandLineArg mode : String)
    (hauth : runpopenAuthorised windows g session commandLineArg)
    (hmode : mode = "r" ∨ mode = "w") :
    (runpopenVerdict windows session commandLineArg = ExamineCommandLineResult.ProbablySafe →
        loggedInfos (miktex_emulate__runpopen windows g session commandLineArg mode).trace
          = ["initiating restricted " ++ (if mode = "w" then "output" else "input")
              ++ " pipe stream: " ++ runpopenSelected windows g session commandLineArg]
        ∧ loggedWarnings (miktex_emulate__runpopen windows g session commandLineArg mode).trace
          = [])
    ∧ (runpopenVerdict windows session commandLineArg ≠ ExamineCommandLineResult.ProbablySafe →
        runpopenVerdict windows session commandLineArg = ExamineCommandLineResult.MaybeSafe
        ∧ g.restrictedshell = 0
        ∧ loggedWarnings (miktex_emulate__runpopen windows g session commandLineArg mode).trace
          = ["initiating unrestricted " ++ (if mode = "w" then "output" else "input")
              ++ " pipe stream: " ++ runpopenCommandLine windows commandLineArg]
        ∧ loggedInfos (miktex_emulate__runpopen windows g session commandLineArg mode).trace
          = [])
    ∧ (g.restrictedshell ≠ 0 →
        loggedInfos (miktex_emulate__runpopen windows g session commandLineArg mode).trace
          = ["initiating restricted " ++ (if mode = "w" then "output" else "input")
              ++ " pipe stream: " ++ runpopenSafeCommandLine windows session commandLineArg]
        ∧ loggedWarnings (miktex_emulate__runpopen windows g session commandLineArg mode).trace
          = []) := by
  obtain ⟨t, hrun, -, -, hinfo, hwarn, -⟩ :=
    runpopen_of_authorised windows g session commandLineArg mode hauth
  obtain ⟨-, -, hps, hnps⟩ := runpopenOpenPipe_valid_mode session
    (runpopenVerdict windows session commandLineArg) mode t
    (runpopenSelected windows g session commandLineArg) hmode
  rw [hrun]
  obtain ⟨-, hcase⟩ := hauth
  refine ⟨fun hv => ?_, fun hv => ?_, fun hres => ?_⟩
  · simpa [hinfo, hwarn] using hps hv
  · rcases hcase with ⟨_, hv2⟩ | ⟨hres, hv2 | hv2, _⟩
    · exact absurd hv2 hv
    · exact absurd hv2 hv
    · have hsel : runpopenSelected windows g session commandLineArg
          = runpopenCommandLine windows commandLineArg := by
        simp [runpopenSelected, hres]
      have h := hnps hv
      rw [hsel] at h ⊢
      exact ⟨hv2, hres, by simpa [hinfo, hwarn] using h⟩
  · rcases hcase with ⟨_, hv2⟩ | ⟨hres2, _, _⟩
    · have hsel : runpopenSelected windows g session commandLineArg
          = runpopenSafeCommandLine windows session commandLineArg := by
        simp [runpopenSelected, hres]
      have h := hps hv2
      rw [hsel] at h ⊢
      simpa [hinfo, hwarn] using h
    · exact absurd hres2 hres

/-- Witness for C15 (amended): a `MaybeSafe` command run by a user who is not
an administrator, in unrestricted mode. -/
theorem runpopen_announcement_witness :
    runpopenAuthorised false (sampleGlobals 0 0)
        (sampleSession ExamineCommandLineResult.MaybeSafe false false) "ls | grep foo"
    ∧ loggedWarnings (miktex_emulate__runpopen false (sampleGlobals 0 0)
        (sampleSession ExamineCommandLineResult.MaybeSafe false false)
        "ls | grep foo" "w").trace
        = ["initiating unrestricted " ++ (if ("w" : String) = "w" then "output" else "input")
              ++ " pipe stream: " ++ runpopenCommandLine false "ls | grep foo"] :=
  have h := runpopen_announcement false (sampleGlobals 0 0)
    (sampleSession ExamineCommandLineResult.MaybeSafe false false) "ls | grep foo" "w"
    (by decide) (Or.inr rfl)
  ⟨by decide, (h.2.1 (by decide)).2.2.1⟩


/-- C16: the rules are evaluated in a fixed order. With the verdict
`SyntaxError` or `NotSafe` the call makes no privilege query (and, the entry
check passed, returns null); a privilege query is made only when the verdict
is `ProbablySafe` or `MaybeSafe` and `restrictedshell` is not set; the
queries are then `RunningAsAdministrator()` first and, for an administrator
only, the allow-unrestricted-super-user configuration value. -/
theorem runpopen_privilege_query_order (windows : Bool) (g : Globals) (session : Session)
    (commandLineArg mode : String) :
    ((runpopenVerdict windows session commandLineArg = ExamineCommandLineResult.SyntaxError
        ∨ runpopenVerdict windows session commandLineArg = ExamineCommandLineResult.NotSafe) →
        privilegeQueries (miktex_emulate__runpopen windows g session commandLineArg mode).trace
          = []
        ∧ (g.shellenabledp ≠ 0 →
            (miktex_emulate__runpopen windows g session commandLineArg mode).outcome
              = Outcome.returned none))
    ∧ (privilegeQueries (miktex_emulate__runpopen windows g session commandLineArg mode).trace
          ≠ [] →
        (runpopenVerdict windows session commandLineArg = ExamineCommandLineResult.ProbablySafe
          ∨ runpopenVerdict windows session commandLineArg = ExamineCommandLineResult.MaybeSafe)
        ∧ g.restrictedshell = 0)
    ∧ (privilegeQueries (miktex_emulate__runpopen windows g session commandLineArg mode).trace
          = []
      ∨ (session.RunningAsAdministrator = false
        ∧ privilegeQueries
            (miktex_emulate__runpopen windows g session commandLineArg mode).trace
          = [Event.RunningAsAdministrator])
      ∨ (session.RunningAsAdministrator = true
        ∧ privilegeQueries
            (miktex_emulate__runpopen windows g session commandLineArg mode).trace
          = [Event.RunningAsAdministrator,
             Event.GetConfigValue ConfigSection.CORE
               ConfigValueName.ALLOW_UNRESTRICTED_SUPER_USER])) := by
  rcases runpopen_gate_cases windows g session commandLineArg mode with
    ⟨h0, hrun⟩ | ⟨h0, hv, hrun⟩ | ⟨h0, hv, hrun⟩ | ⟨h0, hres, hv, hrun⟩
    | ⟨h0, hres, hv, hrun⟩ | ⟨h0, hres, hv, hadm, hallow, hrun⟩
    | ⟨h0, hres, hv, hadm, hallow, hrun⟩ | ⟨h0, hres, hv, hadm, hrun⟩
  · simp [hrun, h0, privilegeQueries]
  · simp [hrun, hv, privilegeQueries]
  · simp [hrun, hv, privilegeQueries]
  · simp [hrun, hv, privilegeQueries]
  · simp only [hrun, privilegeQueries_runpopenOpenPipe]
    simp [hv, privilegeQueries]
  · rcases hv with hv | hv <;> simp [hrun, hv, hres, hadm, privilegeQueries]
  · simp only [hrun, privilegeQueries_runpopenOpenPipe]
    rcases hv with hv | hv <;> simp [hv, hres, hadm, privilegeQueries]
  · simp only [hrun, privilegeQueries_runpopenOpenPipe]
    rcases hv with hv | hv <;> simp [hv, hres, hadm, privilegeQueries]

/-- C18: when `miktex_emulate__runpopen` has authorised a command and the mode
is "r" or "w", the pipe opener is called once, in Command mode, with Read
access for "r" and Write access for "w"; if it throws a `MiKTeXException` the
call returns null, and if it returns a stream the call returns that stream. -/
theorem runpopen_open_file_result (windows : Bool) (g : Globals) (session : Session)
    (commandLineArg mode : String)
    (hauth : runpopenAuthorised windows g session commandLineArg)
    (hmode : mode = "r" ∨ mode = "w") :
    (mode = "r" →
        openFileCalls (miktex_emulate__runpopen windows g session commandLineArg mode).trace
          = [(runpopenSelected windows g session commandLineArg, FileMode.Command,
              FileAccess.Read, true)])
    ∧ (mode = "w" →
        openFileCalls (miktex_emulate__runpopen windows g session commandLineArg mode).trace
          = [(runpopenSelected windows g session commandLineArg, FileMode.Command,
              FileAccess.Write, true)])
    ∧ (∀ e, session.OpenFile (runpopenSelected windows g session commandLineArg)
          FileMode.Command (if mode = "w" then FileAccess.Write else FileAccess.Read) true
          = Except.error e →
        (miktex_emulate__runpopen windows g session commandLineArg mode).outcome
          = Outcome.returned none)
    ∧ (∀ file, session.OpenFile (runpopenSelected windows g session commandLineArg)
          FileMode.Command (if mode = "w" then FileAccess.Write else FileAccess.Read) true
          = Except.ok file →
        (miktex_emulate__runpopen windows g session commandLineArg mode).outcome
          = Outcome.returned file) := by
  obtain ⟨hcalls, -, hout⟩ :=
    runpopen_allowed_run windows g session commandLineArg mode hauth hmode
  refine ⟨fun hm => ?_, fun hm => ?_, fun e he => ?_, fun file hf => ?_⟩
  · subst hm
    simpa using hcalls
  · subst hm
    simpa using hcalls
  · rw [hout, he]
  · rw [hout, hf]

/-- Witness for C18: the pipe opener throws, the call returns null. -/
theorem runpopen_open_file_result_witness :
    runpopenAuthorised false (sampleGlobals 0 1)
        (throwingSession ExamineCommandLineResult.ProbablySafe false false)
        "kpsewhich article.cls"
    ∧ (miktex_emulate__runpopen false (sampleGlobals 0 1)
        (throwingSession ExamineCommandLineResult.ProbablySafe false false)
        "kpsewhich article.cls" "r").outcome = Outcome.returned none :=
  have h := runpopen_open_file_result false (sampleGlobals 0 1)
    (throwingSession ExamineCommandLineResult.ProbablySafe false false)
    "kpsewhich article.cls" "r" (by decide) (Or.inl rfl)
  ⟨by decide, h.2.2.1 ⟨"the pipe could not be opened"⟩ rfl⟩

/-- Reading a list index by index gives the list back. -/
theorem range_map_get? {α : Type} (l : List α) :
    (List.range l.length).map (fun idx => l.get? idx) = l.map some := by
  apply List.ext_get?
  intro i
  by_cases hi : i < l.length
  · simp [hi, List.getElem?_eq_getElem]
  · simp [hi]
    have : l.length ≤ i := Nat.le_of_not_lt hi
    simp [List.getElem?_eq_none, this]

/-- C13: for a command line that `Argv` splits into n >= 1 arguments and a
non-null `argv0Ret`, `miktex_emulate__do_split_command` returns an array of
n+1 entries, the first n being the arguments in their order and the last
being null, and stores the first argument, entry 0 of the array, in
`*argv0Ret`. -/
theorem do_split_command_spec (Argv : String → List String) (commandLine : String)
    (hn : 1 ≤ (Argv commandLine).length) :
    ∃ r, miktex_emulate__do_split_command Argv commandLine false = some (Outcome.returned r)
      ∧ r.result = (Argv commandLine).map some ++ [none]
      ∧ r.result.length = (Argv commandLine).length + 1
      ∧ r.result.take (Argv commandLine).length = (Argv commandLine).map some
      ∧ r.result.get? (Argv commandLine).length = some none
      ∧ (Argv commandLine).head? = some r.argv0Ret
      ∧ r.result.head? = some (some r.argv0Ret) := by
  cases hargv : Argv commandLine with
  | nil => simp [hargv] at hn
  | cons argv0 rest =>
    refine ⟨⟨(argv0 :: rest).map some ++ [none], argv0⟩, ?_, rfl, ?_, ?_, ?_, ?_, ?_⟩
    · simp only [miktex_emulate__do_split_command, hargv, range_map_get?]
      simp
    · simp
    · simp
    · simp [List.getElem?_append_right]
    · simp
    · simp

/-- Witness for C13: a command line of two words. -/
theorem do_split_command_spec_witness :
    1 ≤ (sampleArgv "kpsewhich  article.cls").length
    ∧ ∃ r, miktex_emulate__do_split_command sampleArgv "kpsewhich  article.cls" false
        = some (Outcome.returned r)
      ∧ r.result = (sampleArgv "kpsewhich  article.cls").map some ++ [none] :=
  ⟨by decide,
    (do_split_command_spec sampleArgv "kpsewhich  article.cls" (by decide)).imp
      fun _ h => ⟨h.1, h.2.1⟩⟩

/-- A token read by `splitAux` contains no double quote, provided the part of
the current token read so far contains none. -/
theorem splitAux_quote_free (line : List Char) :
    ∀ (st : SplitState) (tokens : List (List Char)),
      splitAux line st = some tokens →
      (∀ cur, (st = SplitState.inToken cur ∨ st = SplitState.inQuote cur) →
        Char.ofNat 34 ∉ cur) →
      ∀ token ∈ tokens, Char.ofNat 34 ∉ token := by
  induction line with
  | nil =>
    intro st tokens h hcur token hmem
    cases st with
    | between =>
      simp [splitAux] at h
      subst h
      simp at hmem
    | inToken cur =>
      simp [splitAux] at h
      subst h
      simp at hmem
      subst hmem
      simpa using hcur cur (Or.inl rfl)
    | inQuote cur => simp [splitAux] at h
  | cons ch rest ih =>
    intro st tokens h hcur token hmem
    cases st with
    | between =>
      simp only [splitAux] at h
      split at h
      · exact ih _ _ h (by intro cur hc; simp at hc; subst hc; simp) token hmem
      · split at h
        · exact ih _ _ h (by intro cur hc; simp at hc) token hmem
        · rename_i hq _
          exact ih _ _ h (by
            intro cur hc
            simp at hc
            subst hc
            simpa using fun heq => hq heq.symm) token hmem
    | inToken cur =>
      have hc0 := hcur cur (Or.inl rfl)
      simp only [splitAux] at h
      split at h
      · exact ih _ _ h (by intro c hc; simp at hc; subst hc; exact hc0) token hmem
      · split at h
        · cases hrest : splitAux rest SplitState.between with
          | none => simp [hrest] at h
          | some tokens' =>
            simp [hrest] at h
            subst h
            rcases List.mem_cons.mp hmem with heq | hmem'
            · subst heq
              simpa using hc0
            · exact ih _ _ hrest (by intro c hc; simp at hc) token hmem'
        · rename_i hq _
          exact ih _ _ h (by
            intro c hc
            simp at hc
            subst hc
            simp only [List.mem_cons, not_or]
            exact ⟨fun heq => hq heq.symm, hc0⟩) token hmem
    | inQuote cur =>
      have hc0 := hcur cur (Or.inr rfl)
      simp only [splitAux] at h
      split at h
      · exact ih _ _ h (by intro c hc; simp at hc; subst hc; exact hc0) token hmem
      · rename_i hq
        exact ih _ _ h (by
          intro c hc
          simp at hc
          subst hc
          simp only [List.mem_cons, not_or]
          exact ⟨fun heq => hq heq.symm, hc0⟩) token hmem

/-- Inside a quoted part, `splitAux` reads a quote-free text up to the closing
quote into the current token. -/
theorem splitAux_quoted (token : List Char) (hq : Char.ofNat 34 ∉ token) :
    ∀ (cur rest : List Char),
      splitAux (token ++ Char.ofNat 34 :: rest) (SplitState.inQuote cur)
        = splitAux rest (SplitState.inToken (token.reverse ++ cur)) := by
  induction token with
  | nil =>
    intro cur rest
    simp [splitAux]
  | cons ch token ih =>
    intro cur rest
    have hch : ch ≠ Char.ofNat 34 := fun h => hq (by simp [h])
    have hq' : Char.ofNat 34 ∉ token := fun h => hq (by simp [h])
    rw [List.cons_append]
    simp only [splitAux, if_neg hch]
    rw [ih hq']
    simp

/-- Splitting a rewritten sequence of quote-free tokens gives the tokens
back. -/
theorem splitAux_rewriteAux (tokens : List (List Char))
    (hq : ∀ token ∈ tokens, Char.ofNat 34 ∉ token) :
    splitAux (rewriteAux tokens) SplitState.between = some tokens := by
  induction tokens with
  | nil => simp [rewriteAux, splitAux]
  | cons token tokens ih =>
    have hq0 : Char.ofNat 34 ∉ token := hq token (by simp)
    cases tokens with
    | nil =>
      simp only [rewriteAux, splitAux, if_true]
      rw [splitAux_quoted token hq0]
      simp [splitAux]
    | cons next tokens =>
      have ih' := ih (fun t ht => hq t (by simp [List.mem_cons] at ht ⊢; tauto))
      simp only [rewriteAux, splitAux, if_true]
      rw [splitAux_quoted token hq0]
      have h32 : Char.ofNat 32 ≠ Char.ofNat 34 := by decide
      simp only [splitAux, if_neg h32, true_or, if_true]
      rw [ih']
      simp


/-- What `Split` gives, in terms of `splitAux`. -/
theorem Split_eq_some (line : String) (tokens : List String) (h : Split line = some tokens) :
    ∃ raw, splitAux line.data SplitState.between = some raw ∧ raw ≠ []
      ∧ tokens = raw.map String.mk := by
  unfold Split at h
  cases hs : splitAux line.data SplitState.between with
  | none => simp [hs] at h
  | some raw =>
    cases raw with
    | nil => simp [hs] at h
    | cons t ts =>
      simp only [hs, Option.some.injEq] at h
      exact ⟨t :: ts, rfl, by simp, h.symm⟩

/-- Splitting the rewritten tokens of a line that parses gives the tokens
back. -/
theorem Split_Rewrite (line : String) (tokens : List String) (h : Split line = some tokens) :
    Split (Rewrite tokens) = some tokens := by
  obtain ⟨raw, hraw, hne, htok⟩ := Split_eq_some line tokens h
  have hq : ∀ token ∈ raw, Char.ofNat 34 ∉ token :=
    splitAux_quote_free line.data SplitState.between raw hraw (by intro cur hc; simp at hc)
  have hdata : tokens.map String.data = raw := by
    rw [htok, List.map_map]
    simp [Function.comp_def]
  unfold Split Rewrite
  rw [hdata]
  simp only [splitAux_rewriteAux raw hq]
  cases raw with
  | nil => exact absurd rfl hne
  | cons t ts => simp [htok]

/-- C14: for every command line that parses, the safe command line of the
examination parses to the same tokens as the original, so
`miktex_emulate__do_split_command` finds in it the same program name as in
the original command line, the one the examination reports. -/
theorem safe_command_line_program_name (classify : List String → ExamineCommandLineResult)
    (commandLine : String) (tokens : List String) (hparse : Split commandLine = some tokens) :
    Split (Examine classify commandLine).2.2 = some tokens
    ∧ ∃ r r', miktex_emulate__do_split_command splitArgv commandLine false
          = some (Outcome.returned r)
        ∧ miktex_emulate__do_split_command splitArgv (Examine classify commandLine).2.2 false
          = some (Outcome.returned r')
        ∧ r'.argv0Ret = r.argv0Ret
        ∧ r.argv0Ret = (Examine classify commandLine).2.1 := by
  have hsafe : (Examine classify commandLine).2.2 = Rewrite tokens := by
    simp [Examine, hparse]
  have hname : (Examine classify commandLine).2.1 = tokens.headD "" := by
    simp [Examine, hparse]
  have hround := Split_Rewrite commandLine tokens hparse
  obtain ⟨raw, -, hne, htok⟩ := Split_eq_some commandLine tokens hparse
  rw [hsafe, hname]
  refine ⟨hround, ?_⟩
  cases tokens with
  | nil =>
    cases raw with
    | nil => exact absurd rfl hne
    | cons t ts => simp at htok
  | cons argv0 rest =>
    refine ⟨⟨(List.range (argv0 :: rest).length).map (fun idx => (argv0 :: rest).get? idx)
        ++ [none], argv0⟩, ⟨(List.range (argv0 :: rest).length).map
        (fun idx => (argv0 :: rest).get? idx) ++ [none], argv0⟩, ?_, ?_, rfl, rfl⟩
    · simp [miktex_emulate__do_split_command, splitArgv, hparse]
    · simp [miktex_emulate__do_split_command, splitArgv, hround]

/-- Witness for C14: a command line with a quoted argument. -/
theorem safe_command_line_program_name_witness :
    Split "gs -q  \x22a b\x22c" = some ["gs", "-q", "a bc"]
    ∧ Split (Examine (fun _ => ExamineCommandLineResult.ProbablySafe)
        "gs -q  \x22a b\x22c").2.2 = some ["gs", "-q", "a bc"] :=
  ⟨by decide,
    (safe_command_line_program_name (fun _ => ExamineCommandLineResult.ProbablySafe)
      "gs -q  \x22a b\x22c" ["gs", "-q", "a bc"] (by decide)).1⟩

/-- C19: `miktex_is_output_file` returns non-zero exactly when the path, with
one ".gz" extension removed if it has that extension, has the extension
".dvi", ".pdf" or ".synctex"; the result is 0 or 1. On paths whose extension
is the part of the last component from its last dot on, "out.pdf" and
"out.synctex.gz" are output files and "out.log", "out.gz" and
"out.pdf.gz.gz" are not. -/
theorem is_output_file_spec (HasExtension : String → String → Bool)
    (SetExtension : String → String → String) (pathArg : String) :
    (miktex_is_output_file HasExtension SetExtension pathArg ≠ 0
      ↔ (HasExtension (if HasExtension pathArg ".gz" then SetExtension pathArg "" else pathArg)
            ".dvi" = true
        ∨ HasExtension (if HasExtension pathArg ".gz" then SetExtension pathArg "" else pathArg)
            ".pdf" = true
        ∨ HasExtension (if HasExtension pathArg ".gz" then SetExtension pathArg "" else pathArg)
            ".synctex" = true))
    ∧ (miktex_is_output_file HasExtension SetExtension pathArg = 0
      ∨ miktex_is_output_file HasExtension SetExtension pathArg = 1)
    ∧ miktex_is_output_file pathHasExtension pathSetExtension "out.pdf" = 1
    ∧ miktex_is_output_file pathHasExtension pathSetExtension "out.synctex.gz" = 1
    ∧ miktex_is_output_file pathHasExtension pathSetExtension "out.log" = 0
    ∧ miktex_is_output_file pathHasExtension pathSetExtension "out.gz" = 0
    ∧ miktex_is_output_file pathHasExtension pathSetExtension "out.pdf.gz.gz" = 0 := by
  have hdef : miktex_is_output_file HasExtension SetExtension pathArg
      = if HasExtension (if HasExtension pathArg ".gz" then SetExtension pathArg "" else pathArg)
            ".dvi"
          || HasExtension (if HasExtension pathArg ".gz" then SetExtension pathArg "" else pathArg)
            ".pdf"
          || HasExtension (if HasExtension pathArg ".gz" then SetExtension pathArg "" else pathArg)
            ".synctex"
        then 1 else 0 := rfl
  rw [hdef]
  refine ⟨?_, ?_, by decide, by decide, by decide, by decide, by decide⟩ <;>
    cases HasExtension (if HasExtension pathArg ".gz" then SetExtension pathArg "" else pathArg)
      ".dvi" <;>
    cases HasExtension (if HasExtension pathArg ".gz" then SetExtension pathArg "" else pathArg)
      ".pdf" <;>
    cases HasExtension (if HasExtension pathArg ".gz" then SetExtension pathArg "" else pathArg)
      ".synctex" <;>
    simp

/-- The C string of a buffer, one character at a time. -/
theorem cString_cons (ch : Char) (rest : List Char) :
    cString (ch :: rest) = if ch = Char.ofNat 0 then [] else ch :: cString rest := by
  by_cases h0 : ch = Char.ofNat 0 <;> simp [cString, List.takeWhile_cons, h0]

/-- The function `miktex_convert_to_unix`, one character at a time. -/
theorem miktex_convert_to_unix_cons (ch : Char) (rest : List Char) :
    miktex_convert_to_unix (ch :: rest)
      = if ch = Char.ofNat 0 then ch :: rest
        else (if ch = Char.ofNat 92 then Char.ofNat 47 else ch)
          :: miktex_convert_to_unix rest := by
  simp [miktex_convert_to_unix]

/-- The string left by `miktex_convert_to_unix` is the old string with every
backslash turned into a forward slash. -/
theorem cString_miktex_convert_to_unix (buffer : List Char) :
    cString (miktex_convert_to_unix buffer)
      = (cString buffer).map (fun ch => if ch = Char.ofNat 92 then Char.ofNat 47 else ch) := by
  induction buffer with
  | nil => simp [miktex_convert_to_unix, cString]
  | cons ch rest ih =>
    rw [miktex_convert_to_unix_cons]
    by_cases h0 : ch = Char.ofNat 0
    · rw [if_pos h0, cString_cons, if_pos h0]
      simp
    · rw [if_neg h0, cString_cons, cString_cons, if_neg h0, ih]
      by_cases hb : ch = Char.ofNat 92
      · subst hb
        have h47 : Char.ofNat 47 ≠ Char.ofNat 0 := by decide
        simp [h47]
      · simp [hb, h0]

/-- The function `miktex_convert_to_unix` keeps the length of the buffer. -/
theorem length_miktex_convert_to_unix (buffer : List Char) :
    (miktex_convert_to_unix buffer).length = buffer.length := by
  induction buffer with
  | nil => simp [miktex_convert_to_unix]
  | cons ch rest ih =>
    rw [miktex_convert_to_unix_cons]
    by_cases h0 : ch = Char.ofNat 0 <;> simp [h0, ih]

/-- The function `miktex_convert_to_unix` leaves the terminator and what
follows it untouched. -/
theorem drop_miktex_convert_to_unix (buffer : List Char) :
    (miktex_convert_to_unix buffer).drop (cString buffer).length
      = buffer.drop (cString buffer).length := by
  induction buffer with
  | nil => simp [miktex_convert_to_unix]
  | cons ch rest ih =>
    rw [miktex_convert_to_unix_cons, cString_cons]
    by_cases h0 : ch = Char.ofNat 0 <;> simp [h0, ih]

/-- Applying `miktex_convert_to_unix` twice is applying it once. -/
theorem miktex_convert_to_unix_idem (buffer : List Char) :
    miktex_convert_to_unix (miktex_convert_to_unix buffer) = miktex_convert_to_unix buffer := by
  induction buffer with
  | nil => simp [miktex_convert_to_unix]
  | cons ch rest ih =>
    rw [miktex_convert_to_unix_cons]
    by_cases h0 : ch = Char.ofNat 0
    · rw [if_pos h0, miktex_convert_to_unix_cons, if_pos h0]
    · rw [if_neg h0, miktex_convert_to_unix_cons, ih]
      by_cases hb : ch = Char.ofNat 92
      · subst hb
        have h47 : Char.ofNat 47 ≠ Char.ofNat 0 := by decide
        have h47b : Char.ofNat 47 ≠ Char.ofNat 92 := by decide
        simp [h47, h47b]
      · simp [h0, hb]

/-- C20: `miktex_convert_to_unix` rewrites the NUL-terminated string in place:
the buffer keeps its length, the string keeps its length, the character at
each position of the string is a forward slash where there was a backslash
and the old character otherwise, the terminator and what follows it are
untouched, the result contains no backslash, and a second application
changes nothing. -/
theorem convert_to_unix_spec (buffer : List Char) :
    (miktex_convert_to_unix buffer).length = buffer.length
    ∧ cString (miktex_convert_to_unix buffer)
        = (cString buffer).map
            (fun ch => if ch = Char.ofNat 92 then Char.ofNat 47 else ch)
    ∧ (cString (miktex_convert_to_unix buffer)).length = (cString buffer).length
    ∧ (∀ i, (cString (miktex_convert_to_unix buffer)).get? i
        = ((cString buffer).get? i).map
            (fun ch => if ch = Char.ofNat 92 then Char.ofNat 47 else ch))
    ∧ (miktex_convert_to_unix buffer).drop (cString buffer).length
        = buffer.drop (cString buffer).length
    ∧ Char.ofNat 92 ∉ cString (miktex_convert_to_unix buffer)
    ∧ miktex_convert_to_unix (miktex_convert_to_unix buffer)
        = miktex_convert_to_unix buffer := by
  have hmap := cString_miktex_convert_to_unix buffer
  refine ⟨length_miktex_convert_to_unix buffer, hmap, ?_, ?_,
    drop_miktex_convert_to_unix buffer, ?_, miktex_convert_to_unix_idem buffer⟩
  · rw [hmap, List.length_map]
  · intro i
    rw [hmap]
    simp
  · rw [hmap]
    intro hmem
    obtain ⟨ch, -, hch⟩ := List.mem_map.mp hmem
    by_cases hb : ch = Char.ofNat 92
    · rw [if_pos hb] at hch
      exact absurd hch (by decide)
    · rw [if_neg hb] at hch
      exact hb hch

/-- The end of `miktex_open_format_file` searches nothing, enters nothing and
consults no time. -/
theorem openFormatFileFinish_observations (pathName : FormatPathName) (session : FileSession)
    (fileName found : String) (t : List FormatFileEvent) :
    formatFileSearches (openFormatFileFinish pathName session fileName found t).trace
        = formatFileSearches t
    ∧ formatFileCalls (openFormatFileFinish pathName session fileName found t).trace
        = formatFileCalls t
    ∧ formatFileTimeQueries (openFormatFileFinish pathName session fileName found t).trace
        = formatFileTimeQueries t := by
  unfold openFormatFileFinish
  cases session.OpenFile found FileMode.Open FileAccess.Read false <;>
    simp [formatFileSearches, formatFileCalls, formatFileTimeQueries]

/-- A call of `miktex_open_format_file` with `renew` non-zero: one search with
the options Create and Renew, no recursion. -/
theorem miktex_open_format_file_renew (pathName : FormatPathName)
    (GetLastWriteTime : String → Int) (session : FileSession) (fileNameArg : String)
    (renew : Int) (hrenew : renew ≠ 0) :
    formatFileSearches
        (miktex_open_format_file pathName GetLastWriteTime session fileNameArg renew).trace
        = [{FindFileOption.Create, FindFileOption.Renew}]
    ∧ formatFileCalls
        (miktex_open_format_file pathName GetLastWriteTime session fileNameArg renew).trace
        = [renew]
    ∧ formatFileTimeQueries
        (miktex_open_format_file pathName GetLastWriteTime session fileNameArg renew).trace
        = [] := by
  rw [miktex_open_format_file]
  simp only [hrenew, ne_eq, not_false_eq_true, if_true, if_false]
  cases hfind : session.FindFile
      (if (!pathName.HasExtension fileNameArg) = true then
        pathName.SetExtension fileNameArg ".fmt" else fileNameArg)
      FileType.FMT {FindFileOption.Create, FindFileOption.Renew} with
  | none => simp [formatFileSearches, formatFileCalls, formatFileTimeQueries]
  | some found =>
    simp only []
    obtain ⟨h1, h2, h3⟩ := openFormatFileFinish_observations pathName session
      (if (!pathName.HasExtension fileNameArg) = true then
        pathName.SetExtension fileNameArg ".fmt" else fileNameArg) found
      [FormatFileEvent.Call renew,
        FormatFileEvent.FindFile
          (if (!pathName.HasExtension fileNameArg) = true then
            pathName.SetExtension fileNameArg ".fmt" else fileNameArg)
          FileType.FMT {FindFileOption.Create, FindFileOption.Renew}]
    rw [h1, h2, h3]
    simp [formatFileSearches, formatFileCalls, formatFileTimeQueries]


/-- Whether `miktex_open_format_file`, called with `renew` zero, finds the
format file `found` stale: the last admin maintenance is later than its
modification time, or the session is not in admin mode and the last user
maintenance is later. -/
theorem miktex_open_format_file_zero (pathName : FormatPathName)
    (GetLastWriteTime : String → Int) (session : FileSession) (fileNameArg found : String)
    (hfound : session.FindFile (formatFileName pathName fileNameArg) FileType.FMT
      {FindFileOption.Create} = some found) :
    (((session.GetConfigValue ConfigSection.CORE
            ConfigValueName.LAST_ADMIN_MAINTENANCE).GetTimeT > GetLastWriteTime found
        ∨ (session.IsAdminMode = false
          ∧ (session.GetConfigValue ConfigSection.CORE
            ConfigValueName.LAST_USER_MAINTENANCE).GetTimeT > GetLastWriteTime found)) →
      formatFileSearches
          (miktex_open_format_file pathName GetLastWriteTime session fileNameArg 0).trace
          = [{FindFileOption.Create}, {FindFileOption.Create, FindFileOption.Renew}]
      ∧ formatFileCalls
          (miktex_open_format_file pathName GetLastWriteTime session fileNameArg 0).trace
          = [0, 1])
    ∧ (¬ ((session.GetConfigValue ConfigSection.CORE
            ConfigValueName.LAST_ADMIN_MAINTENANCE).GetTimeT > GetLastWriteTime found
        ∨ (session.IsAdminMode = false
          ∧ (session.GetConfigValue ConfigSection.CORE
            ConfigValueName.LAST_USER_MAINTENANCE).GetTimeT > GetLastWriteTime found)) →
      formatFileSearches
          (miktex_open_format_file pathName GetLastWriteTime session fileNameArg 0).trace
          = [{FindFileOption.Create}]
      ∧ formatFileCalls
          (miktex_open_format_file pathName GetLastWriteTime session fileNameArg 0).trace
          = [0]) := by
  unfold formatFileName at hfound
  obtain ⟨hs, hc, -⟩ := miktex_open_format_file_renew pathName GetLastWriteTime session
    fileNameArg 1 (by decide)
  rw [miktex_open_format_file]
  simp only [ne_eq, not_true_eq_false, if_false, hfound, if_true]
  by_cases hadmin : (session.GetConfigValue ConfigSection.CORE
      ConfigValueName.LAST_ADMIN_MAINTENANCE).GetTimeT > GetLastWriteTime found
  · simp only [hadmin, decide_True, Bool.not_true, Bool.false_eq_true, if_false, if_true,
      true_or, forall_true_left, not_true_eq_false, false_implies, and_true]
    simp [formatFileSearches, formatFileCalls, List.filterMap_append] at hs hc ⊢
    exact ⟨hs, hc⟩
  · by_cases hmode : session.IsAdminMode = true
    · simp only [hadmin, hmode, decide_False, Bool.not_false, Bool.not_true, if_true,
        Bool.false_eq_true, if_false, false_or, false_and, false_implies,
        not_false_eq_true, forall_true_left, true_and]
      obtain ⟨h1, h2, -⟩ := openFormatFileFinish_observations pathName session
        (if (!pathName.HasExtension fileNameArg) = true then
          pathName.SetExtension fileNameArg ".fmt" else fileNameArg) found
        ([FormatFileEvent.Call 0,
          FormatFileEvent.FindFile
            (if (!pathName.HasExtension fileNameArg) = true then
              pathName.SetExtension fileNameArg ".fmt" else fileNameArg)
            FileType.FMT {FindFileOption.Create}]
          ++ [FormatFileEvent.GetLastWriteTime found,
            FormatFileEvent.GetConfigValue ConfigSection.CORE
              ConfigValueName.LAST_ADMIN_MAINTENANCE]
          ++ [FormatFileEvent.IsAdminMode])
      rw [h1, h2]
      simp [formatFileSearches, formatFileCalls]
    · have hmode' : session.IsAdminMode = false := by simpa using hmode
      by_cases huser : (session.GetConfigValue ConfigSection.CORE
          ConfigValueName.LAST_USER_MAINTENANCE).GetTimeT > GetLastWriteTime found
      · simp only [hadmin, hmode', huser, decide_False, decide_True, Bool.not_false, if_true,
          false_or, true_and, forall_true_left, not_true_eq_false, false_implies, and_true]
        simp [formatFileSearches, formatFileCalls, List.filterMap_append] at hs hc ⊢
        exact ⟨hs, hc⟩
      · simp only [hadmin, hmode', huser, decide_False, Bool.not_false, if_true,
          Bool.false_eq_true, if_false, false_or, and_false, false_implies,
          not_false_eq_true, forall_true_left, true_and]
        obtain ⟨h1, h2, -⟩ := openFormatFileFinish_observations pathName session
          (if (!pathName.HasExtension fileNameArg) = true then
            pathName.SetExtension fileNameArg ".fmt" else fileNameArg) found
          ([FormatFileEvent.Call 0,
            FormatFileEvent.FindFile
              (if (!pathName.HasExtension fileNameArg) = true then
                pathName.SetExtension fileNameArg ".fmt" else fileNameArg)
              FileType.FMT {FindFileOption.Create}]
            ++ [FormatFileEvent.GetLastWriteTime found,
              FormatFileEvent.GetConfigValue ConfigSection.CORE
                ConfigValueName.LAST_ADMIN_MAINTENANCE]
            ++ [FormatFileEvent.IsAdminMode,
              FormatFileEvent.GetConfigValue ConfigSection.CORE
                ConfigValueName.LAST_USER_MAINTENANCE])
        rw [h1, h2]
        simp [formatFileSearches, formatFileCalls]


/-- A call of `miktex_open_format_file` with `renew` zero that does not find
the file: one search, then the fatal error. -/
theorem miktex_open_format_file_zero_not_found (pathName : FormatPathName)
    (GetLastWriteTime : String → Int) (session : FileSession) (fileNameArg : String)
    (hfind : session.FindFile (formatFileName pathName fileNameArg) FileType.FMT
      {FindFileOption.Create} = none) :
    formatFileSearches
        (miktex_open_format_file pathName GetLastWriteTime session fileNameArg 0).trace
        = [{FindFileOption.Create}]
    ∧ formatFileCalls
        (miktex_open_format_file pathName GetLastWriteTime session fileNameArg 0).trace
        = [0] := by
  unfold formatFileName at hfind
  rw [miktex_open_format_file]
  simp only [ne_eq, not_true_eq_false, if_false, hfind]
  simp [formatFileSearches, formatFileCalls]

/-- C21: when `miktex_open_format_file` is called with `renew` zero and the
format file is found, the file is searched a second time, with the options
Create and Renew, exactly when the last admin maintenance is later than the
modification time of the file found, or the session is not in admin mode and
the last user maintenance is later; otherwise there is the one search. When
it is called with `renew` non-zero, neither the modification time nor a
maintenance time is consulted. Every search has the option Create. -/
theorem open_format_file_renew_rule (pathName : FormatPathName)
    (GetLastWriteTime : String → Int) (session : FileSession) (fileNameArg : String)
    (renew : Int) :
    (∀ found, renew = 0 →
        session.FindFile (formatFileName pathName fileNameArg) FileType.FMT
          {FindFileOption.Create} = some found →
        (formatFileSearches
            (miktex_open_format_file pathName GetLastWriteTime session fileNameArg renew).trace
            = [{FindFileOption.Create}, {FindFileOption.Create, FindFileOption.Renew}]
          ↔ ((session.GetConfigValue ConfigSection.CORE
                ConfigValueName.LAST_ADMIN_MAINTENANCE).GetTimeT > GetLastWriteTime found
            ∨ (session.IsAdminMode = false
              ∧ (session.GetConfigValue ConfigSection.CORE
                ConfigValueName.LAST_USER_MAINTENANCE).GetTimeT > GetLastWriteTime found)))
        ∧ (formatFileSearches
            (miktex_open_format_file pathName GetLastWriteTime session fileNameArg renew).trace
            = [{FindFileOption.Create}]
          ↔ ¬ ((session.GetConfigValue ConfigSection.CORE
                ConfigValueName.LAST_ADMIN_MAINTENANCE).GetTimeT > GetLastWriteTime found
            ∨ (session.IsAdminMode = false
              ∧ (session.GetConfigValue ConfigSection.CORE
                ConfigValueName.LAST_USER_MAINTENANCE).GetTimeT > GetLastWriteTime found))))
    ∧ (renew ≠ 0 →
        formatFileTimeQueries
          (miktex_open_format_file pathName GetLastWriteTime session fileNameArg renew).trace
          = [])
    ∧ (∀ options ∈ formatFileSearches
          (miktex_open_format_file pathName GetLastWriteTime session fileNameArg renew).trace,
        FindFileOption.Create ∈ options) := by
  refine ⟨?_, ?_, ?_⟩
  · intro found hrenew hfound
    subst hrenew
    obtain ⟨hstale, hfresh⟩ := miktex_open_format_file_zero pathName GetLastWriteTime session
      fileNameArg found hfound
    by_cases h : ((session.GetConfigValue ConfigSection.CORE
          ConfigValueName.LAST_ADMIN_MAINTENANCE).GetTimeT > GetLastWriteTime found
        ∨ (session.IsAdminMode = false
          ∧ (session.GetConfigValue ConfigSection.CORE
            ConfigValueName.LAST_USER_MAINTENANCE).GetTimeT > GetLastWriteTime found))
    · rw [(hstale h).1]
      simp [h]
    · rw [(hfresh h).1]
      simp [h]
  · intro hrenew
    exact (miktex_open_format_file_renew pathName GetLastWriteTime session fileNameArg renew
      hrenew).2.2
  · by_cases hrenew : renew = 0
    · subst hrenew
      cases hfind : session.FindFile (formatFileName pathName fileNameArg) FileType.FMT
          {FindFileOption.Create} with
      | none =>
        rw [(miktex_open_format_file_zero_not_found pathName GetLastWriteTime session
          fileNameArg hfind).1]
        simp
      | some found =>
        obtain ⟨hstale, hfresh⟩ := miktex_open_format_file_zero pathName GetLastWriteTime
          session fileNameArg found hfind
        by_cases h : ((session.GetConfigValue ConfigSection.CORE
              ConfigValueName.LAST_ADMIN_MAINTENANCE).GetTimeT > GetLastWriteTime found
            ∨ (session.IsAdminMode = false
              ∧ (session.GetConfigValue ConfigSection.CORE
                ConfigValueName.LAST_USER_MAINTENANCE).GetTimeT > GetLastWriteTime found))
        · rw [(hstale h).1]
          simp
        · rw [(hfresh h).1]
          simp
    · rw [(miktex_open_format_file_renew pathName GetLastWriteTime session fileNameArg renew
        hrenew).1]
      simp

/-- Witness for C21: a format file older than the last admin maintenance. -/
theorem open_format_file_renew_rule_witness :
    (sampleFileSession false 50 0).FindFile (formatFileName samplePathName "luatex")
        FileType.FMT {FindFileOption.Create} = some "/var/miktex/luatex.fmt"
    ∧ formatFileSearches
        (miktex_open_format_file samplePathName (fun _ => 40) (sampleFileSession false 50 0)
          "luatex" 0).trace
        = [{FindFileOption.Create}, {FindFileOption.Create, FindFileOption.Renew}] :=
  ⟨by decide,
    (((open_format_file_renew_rule samplePathName (fun _ => 40) (sampleFileSession false 50 0)
      "luatex" 0).1 "/var/miktex/luatex.fmt" rfl (by decide)).1).mpr (Or.inl (by decide))⟩

/-- C22: the recursion of `miktex_open_format_file` ends after at most one
recursive call. The function is entered once, or, when `renew` is zero, a
second time with `renew` equal to 1, and never a third time; every entry
makes one file search, so there are one or two searches per top-level call. -/
theorem open_format_file_terminates (pathName : FormatPathName)
    (GetLastWriteTime : String → Int) (session : FileSession) (fileNameArg : String)
    (renew : Int) :
    (formatFileCalls
        (miktex_open_format_file pathName GetLastWriteTime session fileNameArg renew).trace
        = [renew]
      ∨ (renew = 0
        ∧ formatFileCalls
          (miktex_open_format_file pathName GetLastWriteTime session fileNameArg renew).trace
          = [0, 1]))
    ∧ (formatFileSearches
        (miktex_open_format_file pathName GetLastWriteTime session fileNameArg renew).trace).length
        = (formatFileCalls
          (miktex_open_format_file pathName GetLastWriteTime session fileNameArg
            renew).trace).length
    ∧ 1 ≤ (formatFileSearches
        (miktex_open_format_file pathName GetLastWriteTime session fileNameArg renew).trace).length
    ∧ (formatFileSearches
        (miktex_open_format_file pathName GetLastWriteTime session fileNameArg renew).trace).length
        ≤ 2 := by
  by_cases hrenew : renew = 0
  · subst hrenew
    cases hfind : session.FindFile (formatFileName pathName fileNameArg) FileType.FMT
        {FindFileOption.Create} with
    | none =>
      obtain ⟨hs, hc⟩ := miktex_open_format_file_zero_not_found pathName GetLastWriteTime
        session fileNameArg hfind
      rw [hs, hc]
      simp
    | some found =>
      obtain ⟨hstale, hfresh⟩ := miktex_open_format_file_zero pathName GetLastWriteTime
        session fileNameArg found hfind
      by_cases h : ((session.GetConfigValue ConfigSection.CORE
            ConfigValueName.LAST_ADMIN_MAINTENANCE).GetTimeT > GetLastWriteTime found
          ∨ (session.IsAdminMode = false
            ∧ (session.GetConfigValue ConfigSection.CORE
              ConfigValueName.LAST_USER_MAINTENANCE).GetTimeT > GetLastWriteTime found))
      · rw [(hstale h).1, (hstale h).2]
        simp
      · rw [(hfresh h).1, (hfresh h).2]
        simp
  · obtain ⟨hs, hc, -⟩ := miktex_open_format_file_renew pathName GetLastWriteTime session
      fileNameArg renew hrenew
    rw [hs, hc]
    simp

/-- The loop of `miktex_emulate__spawn_command` collects the entries before
the first null entry. -/
theorem spawnArguments_append (arguments : List String) (rest : List (Option String)) :
    spawnArguments (arguments.map some ++ none :: rest) = some arguments := by
  induction arguments with
  | nil => simp [spawnArguments]
  | cons argument arguments ih => simp [spawnArguments, ih]

/-- C23: for an `argv` whose entries before the first null are `arguments`,
`miktex_emulate__spawn_command` always returns and never lets a
`MiKTeXException` out. With a null `env` it calls `Process::Run` once, with
the file name and exactly `arguments`, and returns its exit code, or -1 with
`errno` set to `ENOENT` if that call throws; with a non-null `env` it returns
-1 with `errno` set to `ENOENT` without running anything. -/
theorem spawn_command_spec (ProcessRun : String → List String → Except MiKTeXException Int)
    (fileName : String) (arguments : List String) (rest : List (Option String))
    (envIsNull : Bool) :
    ∃ r, miktex_emulate__spawn_command ProcessRun fileName
          (arguments.map some ++ none :: rest) envIsNull = some (Outcome.returned r)
      ∧ (envIsNull = true → ∀ exitCode, ProcessRun fileName arguments = Except.ok exitCode →
          r = ⟨exitCode, none, [(fileName, arguments)]⟩)
      ∧ (envIsNull = true → ∀ e, ProcessRun fileName arguments = Except.error e →
          r = ⟨-1, some Errno.ENOENT, [(fileName, arguments)]⟩)
      ∧ (envIsNull = false → r = ⟨-1, some Errno.ENOENT, []⟩)
      ∧ (∀ call ∈ r.ran, call = (fileName, arguments)) := by
  simp only [miktex_emulate__spawn_command, spawnArguments_append, spawnTry]
  cases envIsNull with
  | false => exact ⟨_, rfl, by simp, by simp, by simp, by simp⟩
  | true =>
    cases hrun : ProcessRun fileName arguments with
    | ok exitCode => exact ⟨_, rfl, by simp, by simp, by simp, by simp⟩
    | error e => exact ⟨_, rfl, by simp, by simp, by simp, by simp⟩

/-- C24: `miktex_is_pipe` returns 1 exactly when the session has open-file
information for the stream and its mode is `FileMode::Command`, and 0
otherwise, in particular for a stream the session does not track; on the
sample session the pipe gives 1, the plain file and the unknown stream 0. -/
theorem is_pipe_spec (session : FileSession) (file : FILEptr) :
    (miktex_is_pipe session file = 1
      ↔ ((session.TryGetOpenFileInfo file).1 = true
        ∧ (session.TryGetOpenFileInfo file).2.mode = FileMode.Command))
    ∧ (miktex_is_pipe session file = 0
      ↔ ¬ ((session.TryGetOpenFileInfo file).1 = true
        ∧ (session.TryGetOpenFileInfo file).2.mode = FileMode.Command))
    ∧ ((session.TryGetOpenFileInfo file).1 = false → miktex_is_pipe session file = 0)
    ∧ (miktex_is_pipe session file = 0 ∨ miktex_is_pipe session file = 1)
    ∧ miktex_is_pipe (sampleFileSession false 0 0) (some 7) = 1
    ∧ miktex_is_pipe (sampleFileSession false 0 0) (some 8) = 0
    ∧ miktex_is_pipe (sampleFileSession false 0 0) (some 9) = 0
    ∧ miktex_is_pipe (sampleFileSession false 0 0) none = 0 := by
  refine ⟨?_, ?_, ?_, ?_, by decide, by decide, by decide, by decide⟩ <;>
    simp only [miktex_is_pipe] <;>
    cases (session.TryGetOpenFileInfo file).1 <;>
    by_cases hmode : (session.TryGetOpenFileInfo file).2.mode = FileMode.Command <;>
    simp [hmode]

/-- C25: `miktex_hack__is_luaotfload_file` returns 1 exactly when the cleaned
path equals `varDir/m_t_x_t_e_s_t.tmp` or `varDir/luatex-cache` is a parent
directory of the cleaned path, and 0 otherwise, where `varDir` is the common
data root in admin mode and the user data root otherwise. -/
theorem is_luaotfload_file_spec (lib : PathLibrary) (session : FileSession) (path : String) :
    (miktex_hack__is_luaotfload_file lib session path = 1
      ↔ (lib.Equals
            (lib.Append
              (session.GetSpecialPath (if session.IsAdminMode then SpecialPath.CommonDataRoot
                else SpecialPath.UserDataRoot)) "m_t_x_t_e_s_t.tmp")
            (lib.Clean path) = true
        ∨ lib.IsParentDirectoryOf
            (lib.Append
              (session.GetSpecialPath (if session.IsAdminMode then SpecialPath.CommonDataRoot
                else SpecialPath.UserDataRoot)) "luatex-cache")
            (lib.Clean path) = true))
    ∧ (miktex_hack__is_luaotfload_file lib session path = 0
      ∨ miktex_hack__is_luaotfload_file lib session path = 1)
    ∧ (session.IsAdminMode = true →
        (miktex_hack__is_luaotfload_file lib session path = 1
          ↔ (lib.Equals (lib.Append (session.GetSpecialPath SpecialPath.CommonDataRoot)
                "m_t_x_t_e_s_t.tmp") (lib.Clean path) = true
            ∨ lib.IsParentDirectoryOf
                (lib.Append (session.GetSpecialPath SpecialPath.CommonDataRoot) "luatex-cache")
                (lib.Clean path) = true)))
    ∧ (session.IsAdminMode = false →
        (miktex_hack__is_luaotfload_file lib session path = 1
          ↔ (lib.Equals (lib.Append (session.GetSpecialPath SpecialPath.UserDataRoot)
                "m_t_x_t_e_s_t.tmp") (lib.Clean path) = true
            ∨ lib.IsParentDirectoryOf
                (lib.Append (session.GetSpecialPath SpecialPath.UserDataRoot) "luatex-cache")
                (lib.Clean path) = true)))
    ∧ miktex_hack__is_luaotfload_file samplePathLibrary (sampleFileSession false 0 0)
        "/home/u/.miktex/luatex-cache/generic/names.lua" = 1
    ∧ miktex_hack__is_luaotfload_file samplePathLibrary (sampleFileSession false 0 0)
        "/home/u/.miktex/m_t_x_t_e_s_t.tmp" = 1
    ∧ miktex_hack__is_luaotfload_file samplePathLibrary (sampleFileSession false 0 0)
        "/var/miktex/luatex-cache/generic/names.lua" = 0
    ∧ miktex_hack__is_luaotfload_file samplePathLibrary (sampleFileSession true 0 0)
        "/var/miktex/luatex-cache/generic/names.lua" = 1
    ∧ miktex_hack__is_luaotfload_file samplePathLibrary (sampleFileSession false 0 0)
        "/home/u/.miktex/luatex.log" = 0 := by
  have hgen : ∀ varDir : String,
      ((if lib.Equals (lib.Append varDir "m_t_x_t_e_s_t.tmp") (lib.Clean path) = true then (1 : Int)
          else if lib.IsParentDirectoryOf (lib.Append varDir "luatex-cache") (lib.Clean path)
            = true then 1 else 0) = 1
        ↔ (lib.Equals (lib.Append varDir "m_t_x_t_e_s_t.tmp") (lib.Clean path) = true
          ∨ lib.IsParentDirectoryOf (lib.Append varDir "luatex-cache") (lib.Clean path)
            = true))
      ∧ ((if lib.Equals (lib.Append varDir "m_t_x_t_e_s_t.tmp") (lib.Clean path) = true
            then (1 : Int)
          else if lib.IsParentDirectoryOf (lib.Append varDir "luatex-cache") (lib.Clean path)
            = true then 1 else 0) = 0
        ∨ (if lib.Equals (lib.Append varDir "m_t_x_t_e_s_t.tmp") (lib.Clean path) = true
            then (1 : Int)
          else if lib.IsParentDirectoryOf (lib.Append varDir "luatex-cache") (lib.Clean path)
            = true then 1 else 0) = 1) := by
    intro varDir
    cases lib.Equals (lib.Append varDir "m_t_x_t_e_s_t.tmp") (lib.Clean path) <;>
      cases lib.IsParentDirectoryOf (lib.Append varDir "luatex-cache") (lib.Clean path) <;>
      simp
  refine ⟨(hgen _).1, (hgen _).2, ?_, ?_, by decide, by decide, by decide, by decide,
    by decide⟩
  · intro hadmin
    have h := (hgen (session.GetSpecialPath SpecialPath.CommonDataRoot)).1
    simpa [miktex_hack__is_luaotfload_file, hadmin] using h
  · intro hadmin
    have h := (hgen (session.GetSpecialPath SpecialPath.UserDataRoot)).1
    simpa [miktex_hack__is_luaotfload_file, hadmin] using h

/-- The bitwise and of a natural number with a power of two picks one bit. -/
theorem nat_land_two_pow (n k : Nat) :
    Nat.land n (2 ^ k) = if n.testBit k then 2 ^ k else 0 := by
  apply Nat.eq_of_testBit_eq
  intro i
  show (n &&& 2 ^ k).testBit i = _
  rw [Nat.testBit_and, Nat.testBit_two_pow]
  by_cases hk : n.testBit k = true
  · rw [if_pos hk, Nat.testBit_two_pow]
    by_cases hi : k = i
    · subst hi
      simp [hk]
    · simp [hi]
  · rw [if_neg hk]
    by_cases hi : k = i
    · subst hi
      simp [hk]
    · simp [hi]

/-- The bits of a power of two that a natural number does not have. -/
theorem nat_ldiff_two_pow (n k : Nat) :
    Nat.ldiff (2 ^ k) n = if n.testBit k then 0 else 2 ^ k := by
  apply Nat.eq_of_testBit_eq
  intro i
  rw [Nat.testBit_ldiff, Nat.testBit_two_pow]
  by_cases hk : n.testBit k = true
  · rw [if_pos hk]
    by_cases hi : k = i
    · subst hi
      simp [hk]
    · simp [hi]
  · rw [if_neg hk, Nat.testBit_two_pow]
    by_cases hi : k = i
    · subst hi
      simp [hk]
    · simp [hi]

/-- In two's complement, `role & 2^k` is non-zero exactly when bit `k` of
`role` is set. -/
theorem int_land_two_pow_ne_zero (role : Int) (k : Nat) :
    Int.land role ((2 : Int) ^ k) ≠ 0 ↔ role.testBit k = true := by
  have hpow : ((2 : Int) ^ k) = Int.ofNat (2 ^ k) := by simp
  rw [hpow]
  cases role with
  | ofNat n =>
    show Int.ofNat (Nat.land n (2 ^ k)) ≠ 0 ↔ n.testBit k = true
    rw [nat_land_two_pow]
    by_cases hk : n.testBit k = true
    · simp [hk]
    · simp [hk]
  | negSucc n =>
    show Int.ofNat (Nat.ldiff (2 ^ k) n) ≠ 0 ↔ (!n.testBit k) = true
    rw [nat_ldiff_two_pow]
    by_cases hk : n.testBit k = true
    · simp [hk]
    · simp [hk]

/-- C26: `IsMember` holds exactly when the level is at least 100 and the
expiration date is undefined or not earlier than the current time; each of
`IsDeveloper`, `IsContributor`, `IsSponsor`, `IsKnownUser` holds exactly for
a member whose role has bit 0, 1, 2, 3 (value 1, 2, 4, 8) set. So a user
below level 100, or with a defined expiration date in the past, has none of
the four roles, whatever the role bits are. -/
theorem user_info_roles (IsDefined : Int → Bool) (now : Int) (u : MiKTeXUserInfo) :
    (MiKTeXUserInfo.IsMember IsDefined now u = true
      ↔ (u.level ≥ 100 ∧ (IsDefined u.expirationDate = false ∨ u.expirationDate ≥ now)))
    ∧ (MiKTeXUserInfo.IsDeveloper IsDefined now u = true
      ↔ (MiKTeXUserInfo.IsMember IsDefined now u = true ∧ u.role.testBit 0 = true))
    ∧ (MiKTeXUserInfo.IsContributor IsDefined now u = true
      ↔ (MiKTeXUserInfo.IsMember IsDefined now u = true ∧ u.role.testBit 1 = true))
    ∧ (MiKTeXUserInfo.IsSponsor IsDefined now u = true
      ↔ (MiKTeXUserInfo.IsMember IsDefined now u = true ∧ u.role.testBit 2 = true))
    ∧ (MiKTeXUserInfo.IsKnownUser IsDefined now u = true
      ↔ (MiKTeXUserInfo.IsMember IsDefined now u = true ∧ u.role.testBit 3 = true))
    ∧ ((u.level < 100 ∨ (IsDefined u.expirationDate = true ∧ u.expirationDate < now)) →
        MiKTeXUserInfo.IsDeveloper IsDefined now u = false
        ∧ MiKTeXUserInfo.IsContributor IsDefined now u = false
        ∧ MiKTeXUserInfo.IsSponsor IsDefined now u = false
        ∧ MiKTeXUserInfo.IsKnownUser IsDefined now u = false) := by
  have hmember : MiKTeXUserInfo.IsMember IsDefined now u = true
      ↔ (u.level ≥ 100 ∧ (IsDefined u.expirationDate = false ∨ u.expirationDate ≥ now)) := by
    simp [MiKTeXUserInfo.IsMember, MiKTeXUserInfo.Individual]
  have h0 := int_land_two_pow_ne_zero u.role 0
  have h1 := int_land_two_pow_ne_zero u.role 1
  have h2 := int_land_two_pow_ne_zero u.role 2
  have h3 := int_land_two_pow_ne_zero u.role 3
  norm_num at h0 h1 h2 h3
  refine ⟨hmember, ?_, ?_, ?_, ?_, ?_⟩
  · simp [MiKTeXUserInfo.IsDeveloper, MiKTeXUserInfo.Developer, h0]
  · simp [MiKTeXUserInfo.IsContributor, MiKTeXUserInfo.Contributor, h1]
  · simp [MiKTeXUserInfo.IsSponsor, MiKTeXUserInfo.Sponsor, h2]
  · simp [MiKTeXUserInfo.IsKnownUser, MiKTeXUserInfo.KnownUser, h3]
  · intro hout
    have hnot : MiKTeXUserInfo.IsMember IsDefined now u = false := by
      rw [Bool.eq_false_iff]
      intro hm
      obtain ⟨hlevel, hdate⟩ := hmember.mp hm
      rcases hout with hlow | ⟨hdef, hpast⟩
      · omega
      · rcases hdate with hundef | hfuture
        · rw [hdef] at hundef
          exact Bool.noConfusion hundef
        · omega
    simp [MiKTeXUserInfo.IsDeveloper, MiKTeXUserInfo.IsContributor, MiKTeXUserInfo.IsSponsor,
      MiKTeXUserInfo.IsKnownUser, hnot]

end MiKTeX

namespace log4cxx.rolling

/-- C27: `RolloverDescription` is a value object. For every active file name,
append flag, synchronous action and asynchronous action, null or not, the
object built by the four-argument constructor gives exactly these four values
back from `getActiveFileName`, `getAppend`, `getSynchronous` and
`getAsynchronous`, and each getter leaves the object as it was. -/
theorem RolloverDescription_getters (activeFileName : String) (append : Bool)
    (synchronous asynchronous : ActionPtr) :
    RolloverDescription.getActiveFileName
        (RolloverDescription.create activeFileName append synchronous asynchronous)
      = (activeFileName,
          RolloverDescription.create activeFileName append synchronous asynchronous)
    ∧ RolloverDescription.getAppend
        (RolloverDescription.create activeFileName append synchronous asynchronous)
      = (append,
          RolloverDescription.create activeFileName append synchronous asynchronous)
    ∧ RolloverDescription.getSynchronous
        (RolloverDescription.create activeFileName append synchronous asynchronous)
      = (synchronous,
          RolloverDescription.create activeFileName append synchronous asynchronous)
    ∧ RolloverDescription.getAsynchronous
        (RolloverDescription.create activeFileName append synchronous asynchronous)
      = (asynchronous,
          RolloverDescription.create activeFileName append synchronous asynchronous)
    ∧ (∀ self : rolling.RolloverDescription,
        (RolloverDescription.getActiveFileName self).2 = self
        ∧ (RolloverDescription.getAppend self).2 = self
        ∧ (RolloverDescription.getSynchronous self).2 = self
        ∧ (RolloverDescription.getAsynchronous self).2 = self) :=
  ⟨rfl, rfl, rfl, rfl, fun _ => ⟨rfl, rfl, rfl, rfl⟩⟩

end log4cxx.rolling
